import Mathlib

/-!
Verification of the Confluence-export-to-Markdown converter
(`xmlprocessor.py`, `attachmentprocessor.py`, `converter.py`, `linkchecker.py`).

The Python code is shallowly embedded:
* Python `dict`s become insertion-ordered association lists (`Conf.dget`,
  `Conf.dinsert`): updating an existing key keeps its position, a new key is
  appended — exactly the observable behaviour of CPython dicts.
* Python `set`s of strings become duplicate-free insertion-ordered lists.
* File system state is a map from path to optional file metadata plus a map
  from path to optional directory listing; `os.sep` is modelled as `/`
  (POSIX).  `st_mtime` values are modelled as integers: the code only ever
  compares them, never does arithmetic on them.
* Strings are Lean `String`s; the few `re` patterns the code uses are
  translated into explicit scanning functions over `List Char` which mirror
  the leftmost-match semantics of `re.search` for those concrete patterns.
-/

set_option maxHeartbeats 1000000

namespace Conf

/-! ## Python dict model -/

/-- Lookup in an insertion-ordered association list (Python `d.get(k)` /
`d[k]`). -/
def dget {α : Type} : List (String × α) → String → Option α
  | [], _ => none
  | (k', v) :: rest, k => if k' = k then some v else dget rest k

/-- Python `k in d`. -/
def dmem {α : Type} (m : List (String × α)) (k : String) : Bool :=
  (dget m k).isSome

/-- Python `d[k] = v`: overwrite in place if the key exists (keeping its
position), otherwise append. -/
def dinsert {α : Type} : List (String × α) → String → α → List (String × α)
  | [], k, v => [(k, v)]
  | (k', v') :: rest, k, v =>
    if k' = k then (k, v) :: rest else (k', v') :: dinsert rest k v

/-- Python `del d[k]` (no-op when the key is absent, callers guard with
`in`). -/
def ddel {α : Type} : List (String × α) → String → List (String × α)
  | [], _ => []
  | (k', v') :: rest, k => if k' = k then rest else (k', v') :: ddel rest k

/-- Python `set.add` on a set modelled as a duplicate-free list. -/
def saddList (s : List String) (x : String) : List String :=
  if s.contains x then s else s ++ [x]

/-! ## String helpers (Python string/regex operations) -/

/-- Python `needle in haystack` on strings, over char lists. -/
def listContains (hay needle : List Char) : Bool :=
  match hay with
  | [] => needle.isEmpty
  | _ :: t => needle.isPrefixOf hay || listContains t needle

/-- Python `needle in haystack`. -/
def strContains (hay needle : String) : Bool :=
  listContains hay.data needle.data

/-- Python `s.startswith(t)`. -/
def strStartsWith (s t : String) : Bool :=
  t.data.isPrefixOf s.data

/-- Python `s.endswith(t)`. -/
def strEndsWith (s t : String) : Bool :=
  t.data.isSuffixOf s.data

/-- The whitespace characters stripped by Python `str.strip()` (ASCII
portion; the code never strips non-ASCII whitespace in practice). -/
def isPySpace (c : Char) : Bool :=
  c = ' ' || c = '\t' || c = '\n' || c = '\x0d' || c = '\x0b' || c = '\x0c'

/-- Strip characters satisfying `p` from both ends of a char list. -/
def stripWhile (p : Char → Bool) (l : List Char) : List Char :=
  ((l.dropWhile p).reverse.dropWhile p).reverse

/-- Python `s.strip()`. -/
def pyStrip (s : String) : String :=
  ⟨stripWhile isPySpace s.data⟩

/-- Python `s.strip('. ')`. -/
def pyStripDotSpace (s : List Char) : List Char :=
  stripWhile (fun c => c = '.' || c = ' ') s

/-- Python `s.split(c)` for a one-character separator (`"".split(c) == ['']`,
separators at the ends produce empty fields). -/
def splitChar : List Char → Char → List (List Char)
  | [], _ => [[]]
  | x :: t, c =>
    if x = c then [] :: splitChar t c
    else
      match splitChar t c with
      | [] => [[x]]
      | h :: r => (x :: h) :: r

/-- Python `s.split(sep, 1)` restricted to the case where `sep` occurs:
the text before the first occurrence and the text after it. -/
def splitFirst : List Char → List Char → Option (List Char × List Char)
  | [], needle => if needle.isEmpty then some ([], []) else none
  | x :: t, needle =>
    if needle.isPrefixOf (x :: t) then some ([], (x :: t).drop needle.length)
    else (splitFirst t needle).map (fun p => (x :: p.1, p.2))

/-- `os.path.basename` under POSIX `os.sep`: the text after the last `/`. -/
def pathBasename (s : List Char) : List Char :=
  (s.reverse.takeWhile (fun c => c ≠ '/')).reverse

/-- `os.path.dirname` under POSIX `os.sep`: the text before the last `/`
(empty when there is no `/`). -/
def pathDirname (s : List Char) : List Char :=
  match splitFirst s.reverse ['/'] with
  | none => []
  | some p => p.2.reverse

/-- `re.search(marker + r'(\d+)', s)`: the maximal digit run after the
leftmost occurrence of `marker` that is immediately followed by at least one
digit. -/
def extractAfterMarkerAux (marker : List Char) : List Char → Option (List Char)
  | [] => none
  | x :: t =>
    if marker.isPrefixOf (x :: t) then
      let d := ((x :: t).drop marker.length).takeWhile Char.isDigit
      if d.isEmpty then extractAfterMarkerAux marker t else some d
    else extractAfterMarkerAux marker t

/-- String-level wrapper for `extractAfterMarkerAux`. -/
def extractAfterMarker (s marker : String) : Option String :=
  (extractAfterMarkerAux marker.data s.data).map (fun l => ⟨l⟩)

/-- Try `r'attachments/\d+/(\d+)'` anchored at the start of `hay`
(returning the second digit group). -/
def attIdAt (hay : List Char) : Option (List Char) :=
  if ("attachments/".data).isPrefixOf hay then
    let r := hay.drop 12
    let d1 := r.takeWhile Char.isDigit
    if d1.isEmpty then none
    else
      match r.drop d1.length with
      | '/' :: r2 =>
        let d2 := r2.takeWhile Char.isDigit
        if d2.isEmpty then none else some d2
      | _ => none
  else none

/-- Try `r'download/attachments/\d+/(\d+)'` anchored at the start of
`hay`. -/
def attIdDownloadAt (hay : List Char) : Option (List Char) :=
  if ("download/".data).isPrefixOf hay then attIdAt (hay.drop 9) else none

/-- `re.search(r'attachments/\d+/(\d+)|download/attachments/\d+/(\d+)', s)`:
leftmost match, first alternative preferred at a given position.  For these
two alternatives the extracted group is the digit run after
`attachments/<digits>/`. -/
def extractAttachmentIdAux : List Char → Option (List Char)
  | [] => none
  | x :: t =>
    match attIdAt (x :: t) with
    | some d => some d
    | none =>
      match attIdDownloadAt (x :: t) with
      | some d => some d
      | none => extractAttachmentIdAux t

/-- String-level wrapper for `extractAttachmentIdAux`. -/
def extractAttachmentId (s : String) : Option String :=
  (extractAttachmentIdAux s.data).map (fun l => ⟨l⟩)

/-- `re.search(rf'{path}/(\d+)/', s)` with `path` a literal: the digit run
after the leftmost occurrence of `path ++ "/"` that is followed by at least
one digit and then `/`. -/
def extractDigitsBetweenAux (marker : List Char) : List Char → Option (List Char)
  | [] => none
  | x :: t =>
    (if marker.isPrefixOf (x :: t) then
      let r := (x :: t).drop marker.length
      let d := r.takeWhile Char.isDigit
      if d.isEmpty then none
      else
        match r.drop d.length with
        | '/' :: _ => some d
        | _ => none
    else none).orElse (fun _ => extractDigitsBetweenAux marker t)

/-- String-level wrapper for `extractDigitsBetweenAux`. -/
def extractDigitsBetween (s marker : String) : Option String :=
  (extractDigitsBetweenAux marker.data s.data).map (fun l => ⟨l⟩)

/-- `re.search(r'_(\d{6,10})\.html$', s)`: the maximal digit run directly
before a final `.html` matches when its length is between 6 and 10 and an
underscore precedes it. -/
def extractUnderscoreIdHtml (s : String) : Option String :=
  if strEndsWith s ".html" then
    let body := s.data.take (s.data.length - 5)
    let run := (body.reverse.takeWhile Char.isDigit).reverse
    let before := body.take (body.length - run.length)
    if 6 ≤ run.length ∧ run.length ≤ 10 ∧ before.getLast? = some '_' then some ⟨run⟩
    else none
  else none

/-- `re.search(r'(\d{6,10})\.html$', s)`: matches when the maximal digit run
directly before a final `.html` has length at least 6; the captured group is
its last `min(length, 10)` digits (the leftmost starting position that still
matches). -/
def extractIdHtml (s : String) : Option String :=
  if strEndsWith s ".html" then
    let body := s.data.take (s.data.length - 5)
    let run := (body.reverse.takeWhile Char.isDigit).reverse
    if 6 ≤ run.length then some ⟨run.drop (run.length - 10)⟩
    else none
  else none

/-- Python truthiness of `None`-able strings as they appear in f-strings:
`f"{x}"` renders `None` as the text `None`. -/
def pyStr : Option String → String
  | none => "None"
  | some s => s

/-- `int(s)` for the version-number file names: optional sign followed by
digits (surrounding whitespace never occurs in the inputs the code feeds
it). -/
def pyInt? (s : String) : Option Int :=
  match s.data with
  | [] => none
  | '-' :: ds => if ds ≠ [] ∧ ds.all Char.isDigit then some (-(Int.ofNat (digitsToNat ds))) else none
  | '+' :: ds => if ds ≠ [] ∧ ds.all Char.isDigit then some (Int.ofNat (digitsToNat ds)) else none
  | ds => if ds.all Char.isDigit then some (Int.ofNat (digitsToNat ds)) else none
where
  digitsToNat (l : List Char) : Nat :=
    l.foldl (fun acc c => acc * 10 + (c.toNat - 48)) 0

end Conf

namespace Conf

/-! ## Configuration (`config.py` `Config`, the fields the verified code
consults) -/

structure Cfg where
  CONFLUENCE_BASE_URL : String := "https://confluence.myCompany.com"
  INPUT_FOLDER : String := "input"
  OUTPUT_FOLDER : String := "output"
  ATTACHMENTS_PATH : String := "attachments"
  BLOGPOST_PATH : String := "blogposts"
  USE_UNDERSCORE_IN_FILENAMES : Bool := false
  UNDERSCORE_HOMEPAGE_TITLES : Bool := true
deriving DecidableEq

/-- The default configuration of `config.py`. -/
def defaultCfg : Cfg := {}

/-! ## Filename sanitization (`xmlprocessor.py` `_sanitize_filename`,
`_clean_cdata`, `is_valid_char`) -/

/-- Hexadecimal digit test (both cases), as accepted by `urllib.parse.unquote`. -/
def isHexDig (c : Char) : Bool :=
  c.isDigit || ('a' ≤ c && c ≤ 'f') || ('A' ≤ c && c ≤ 'F')

/-- Value of a hexadecimal digit. -/
def hexVal (c : Char) : Nat :=
  if c.isDigit then c.toNat - 48
  else if 'a' ≤ c && c ≤ 'f' then c.toNat - 87
  else c.toNat - 55

/-- `urllib.parse.unquote`, modelled for single-byte percent escapes
(values below 0x80 decode directly; multi-byte UTF-8 escape sequences do
not occur in the inputs any theorem below evaluates and are left as
literal text). -/
def urlUnquote : List Char → List Char
  | [] => []
  | '%' :: h1 :: h2 :: t =>
    if isHexDig h1 && isHexDig h2 && hexVal h1 * 16 + hexVal h2 < 128 then
      Char.ofNat (hexVal h1 * 16 + hexVal h2) :: urlUnquote t
    else '%' :: urlUnquote (h1 :: h2 :: t)
  | c :: t => c :: urlUnquote t

/-- `unicodedata.normalize('NFKC', s)`: NFKC is the identity on ASCII text;
the model treats it as the identity (no theorem below evaluates the
sanitizer on characters NFKC would rewrite). -/
def nfkc (l : List Char) : List Char := l

/-- `is_valid_char` from `xmlprocessor.py`.  The explicit exclusion set and
private-use ranges are exactly the source's; the `unicodedata.category`
tests are exact on ASCII (controls are `Cc`, everything else printable is
`L`/`N`/`P`/`S`/`Zs`) and modelled for the common non-ASCII control/format
code points.  The source's `url_encoded_mapping` lookup compares a single
character against three-character keys and can never match; it is omitted. -/
def is_valid_char (c : Char) : Bool :=
  let n := c.toNat
  -- excluded_chars: U+200B..U+200F (zero-width and bidi marks) and U+FEFF (BOM)
  if (0x200B ≤ n && n ≤ 0x200F) || n = 0xFEFF then
    false
  -- private use areas
  else if (0xE000 ≤ n && n ≤ 0xF8FF) || (0xF0000 ≤ n && n ≤ 0xFFFFD) ||
      (0x100000 ≤ n && n ≤ 0x10FFFD) then
    false
  -- category Cc (C0 controls, DEL, C1 controls)
  else if n < 0x20 || n = 0x7F || (0x80 ≤ n && n ≤ 0x9F) then
    false
  -- category Cf (common format characters) and Cs (surrogates)
  else if n = 0xAD || (0x600 ≤ n && n ≤ 0x605) || n = 0x61C || n = 0x6DD || n = 0x70F ||
      (0x2060 ≤ n && n ≤ 0x2064) || (0x206A ≤ n && n ≤ 0x206F) ||
      (0xFFF9 ≤ n && n ≤ 0xFFFB) || (0xD800 ≤ n && n ≤ 0xDFFF) then
    false
  else
    true

/-- The characters of the module-level `INVALID_CHARS` regex
`[+/\\:*?&"<>|^\[\]]`. -/
def isInvalidChar (c : Char) : Bool :=
  c = '+' || c = '/' || c = '\\' || c = ':' || c = '*' || c = '?' || c = '&' ||
  c = '"' || c = '<' || c = '>' || c = '|' || c = '^' || c = '[' || c = ']'

/-- `_clean_cdata`: strip a literal CDATA wrapper. -/
def clean_cdata (text : String) : String :=
  if text = "" then ""
  else if strStartsWith text "<![CDATA[" && strEndsWith text "]]>" then
    let l := text.data.drop 9
    ⟨l.take (l.length - 3)⟩
  else text

/-- The sanitization pipeline of `_sanitize_filename` up to (and including)
the space/underscore replacement — the value the final emptiness check
inspects. -/
def sanitize_core (cfg : Cfg) (filename : String) : List Char :=
  let f := urlUnquote filename.data
  let f := nfkc f
  let f := f.filter is_valid_char
  let f := pyStripDotSpace f
  let f := f.map (fun c => if isInvalidChar c then '-' else c)
  if cfg.USE_UNDERSCORE_IN_FILENAMES then f.map (fun c => if c = ' ' then '_' else c) else f

/-- `_sanitize_filename`. -/
def sanitize_filename (cfg : Cfg) (filename : String) : String :=
  if filename = "" then "unnamed"
  else
    let f := sanitize_core cfg filename
    if f.isEmpty then clean_cdata filename
    else clean_cdata ⟨f⟩

/-! ## Entity Store (`xmlprocessor.py` `XmlProcessor` caches) -/

/-- A `Space` dict as built by `_extract_spaces`.  The page/blog-post ID
sets are modelled as duplicate-free insertion-ordered lists. -/
structure Space where
  id : String
  name : String := ""
  key : String := ""
  description : String := ""
  creatorId : String := ""
  creationDate : String := ""
  lastModifierId : String := ""
  lastModificationDate : String := ""
  homePageId : String := ""
  pageIds : List String := []
  blogPostIds : List String := []
deriving DecidableEq

/-- A `User` dict as built by `_extract_users`. -/
structure User where
  id : String
  name : String := ""
  lowerName : String := ""
  email : String := ""
deriving DecidableEq

/-- A `Label` dict as built by `_extract_labels_and_labellings` (the
`namespace` key is called `nspace` here because `namespace` is reserved in
Lean). -/
structure Label where
  id : String
  name : String := ""
  nspace : String := ""
deriving DecidableEq

/-- A `BodyContent` dict (the `content_class` key is only present on bodies
that entered a body-page relation, hence optional). -/
structure Body where
  id : String
  body : String := ""
  bodyType : String := ""
  content_class : Option (Option String) := none
deriving DecidableEq

/-- A `Comment` dict as built by `_extract_comments`. -/
structure Comment where
  id : String
  creatorId : String := ""
  creationDate : String := ""
  containerContentId : String := ""
  bodypage : Option Body := none
deriving DecidableEq

/-- An `OutgoingLink` dict. -/
structure OutLink where
  id : String
  destinationPageTitle : String := ""
  destinationSpaceKey : String := ""
deriving DecidableEq

/-- A `pageProperty` dict. -/
structure PageProp where
  id : String
  name : String := ""
  stringValue : String := ""
deriving DecidableEq

/-- An `Attachment` dict as built by `_extract_attachments`. -/
structure Attachment where
  id : String
  space_id : String := ""
  title : String := ""
  creatorId : String := ""
  lastModifierId : String := ""
  creationDate : String := ""
  lastModificationDate : String := ""
  version : Int := 0
  hibernateVersion : Int := 0
  containerContent_id : String := ""
deriving DecidableEq

/-- A page/blog-post dict as built by `_extract_page_item` /
`_extract_blog_item`.  Blog dicts carry no `parentId` key in the source;
here it is the empty string for blogs (no verified property distinguishes a
missing key from an empty value). -/
structure StoredPage where
  id : String
  type : String
  title : String
  version : Int := 0
  status : String := ""
  spaceId : String := ""
  parentId : String := ""
  creatorId : String := ""
  creationDate : String := ""
  lastModifierId : String := ""
  lastModificationDate : String := ""
  attachments : List Attachment := []
  comments : List Comment := []
  outgoingLinks : List OutLink := []
  labels : List Label := []
  pageProperties : List PageProp := []
  bodypage : Option Body := none
deriving DecidableEq

/-- The Entity Store: the caches of `XmlProcessor`. -/
structure Store where
  spaces : List (String × Space) := []
  page : List (String × StoredPage) := []
  users : List (String × User) := []
  attachments : List (String × Attachment) := []
  comments : List (String × Comment) := []
  space_by_key : List (String × String) := []
  page_by_title : List (String × String) := []
  page_by_title_space : List (String × String) := []
  label_by_id : List (String × Label) := []
  page_id_mapping : List (String × String) := []
  processed_xml_files : List String := []
deriving DecidableEq

/-- A freshly constructed `XmlProcessor`'s caches. -/
def Store.init : Store := {}

/-! ## Entity Store accessors -/

/-- `get_page_by_id`: resolve through the ID-alias table first. -/
def get_page_by_id (st : Store) (page_id : String) : Option StoredPage :=
  if page_id = "" then none
  else
    let pid :=
      match dget st.page_id_mapping page_id with
      | some mapped => if mapped ≠ page_id then mapped else page_id
      | none => page_id
    dget st.page pid

/-- `get_space_by_id`. -/
def get_space_by_id (st : Store) (space_id : String) : Option Space :=
  dget st.spaces space_id

/-- `get_space_by_key` (`return self.spaces.get(space_id) if space_id else
None`). -/
def get_space_by_key (st : Store) (space_key : String) : Option Space :=
  match dget st.space_by_key space_key with
  | some space_id => if space_id ≠ "" then dget st.spaces space_id else none
  | none => none

/-- `get_space_id_by_page_id`. -/
def get_space_id_by_page_id (st : Store) (page_id : String) : Option String :=
  match get_page_by_id st page_id with
  | none => none
  | some p => if p.spaceId ≠ "" then some p.spaceId else none

/-- `get_space_key_by_page_id`. -/
def get_space_key_by_page_id (st : Store) (page_id : String) : Option String :=
  match get_space_id_by_page_id st page_id with
  | none => none
  | some space_id =>
    match get_space_by_id st space_id with
    | none => none
    | some sp => if sp.key ≠ "" then some sp.key else none

/-- `get_page_title_by_id`: page title, else space homepage fallbacks. -/
def get_page_title_by_id (st : Store) (page_id : String) : Option String :=
  match get_page_by_id st page_id with
  | some p => some p.title
  | none =>
    match st.spaces.find? (fun s => s.2.homePageId == page_id && s.2.name != "") with
    | some s => some (s.2.name ++ " Home")
    | none =>
      match st.spaces.find? (fun s => s.2.homePageId == page_id && s.2.key != "") with
      | some s => some (s.2.key ++ " Home")
      | none => none

/-- `get_attachment_by_id`. -/
def get_attachment_by_id (st : Store) (att_id : String) : Option Attachment :=
  dget st.attachments att_id

/-- `get_attachments_by_page_id`: alias-resolve the page ID, then filter the
attachment dict (in insertion order) on `containerContent_id`. -/
def get_attachments_by_page_id (st : Store) (page_id : String) : List Attachment :=
  let pid :=
    match dget st.page_id_mapping page_id with
    | some mapped => if mapped ≠ page_id then mapped else page_id
    | none => page_id
  (st.attachments.filter (fun p => p.2.containerContent_id == pid)).map (fun p => p.2)

end Conf

namespace Conf

/-! ## Parsed XML records

One record per `<object>` element, with each field holding the stripped text
of the corresponding property (`none` when the element is absent or its text
is empty, matching the source's `elem is None or not elem.text` guards).
Numeric properties hold the parsed value (`none` when absent, empty or
unparseable, in which case the source falls back to `0`). -/

/-- An `object[@class='Page']` or `object[@class='BlogPost']` record. -/
structure PageRec where
  recClass : String
  id : Option String := none
  title : Option String := none
  contentStatus : Option String := none
  hibernateVersion : Option Int := none
  version : Option Int := none
  pageStatus : Option String := none
  parentId : Option String := none
  spaceId : Option String := none
  creatorId : Option String := none
  creationDate : Option String := none
  lastModifierId : Option String := none
  lastModificationDate : Option String := none
deriving DecidableEq

/-- An `object[@class='Space']` record. -/
structure SpaceRec where
  id : Option String := none
  name : Option String := none
  key : Option String := none
  creatorId : Option String := none
  creationDate : Option String := none
  lastModifierId : Option String := none
  lastModificationDate : Option String := none
  homePageId : Option String := none
deriving DecidableEq

/-- An `object[@class='ConfluenceUserImpl']` record. -/
structure UserRec where
  id : Option String := none
  name : Option String := none
  lowerName : Option String := none
  email : Option String := none
deriving DecidableEq

/-- An `object[@class='Comment']` record. -/
structure CommentRec where
  id : Option String := none
  creatorId : Option String := none
  creationDate : Option String := none
  containerContentId : Option String := none
deriving DecidableEq

/-- An `object[@class='Attachment']` record. -/
structure AttRec where
  id : Option String := none
  title : Option String := none
  creatorId : Option String := none
  lastModifierId : Option String := none
  creationDate : Option String := none
  lastModificationDate : Option String := none
  version : Option Int := none
  hibernateVersion : Option Int := none
  containerContent_id : Option String := none
  space_id : Option String := none
deriving DecidableEq

/-- An `object[@class='OutgoingLink']` record. -/
structure LinkRec where
  id : Option String := none
  destinationPageTitle : Option String := none
  destinationSpaceKey : Option String := none
  sourcePageId : Option String := none
deriving DecidableEq

/-- An `object[@class='Label']` record. -/
structure LabelRec where
  id : Option String := none
  name : Option String := none
  nspace : Option String := none
deriving DecidableEq

/-- An `object[@class='Labelling']` record. -/
structure LabellingRec where
  labelId : Option String := none
  pageId : Option String := none
deriving DecidableEq

/-- An `object[@class='pageProperty']` record. -/
structure PropRec where
  id : Option String := none
  name : Option String := none
  stringValue : Option String := none
  pageId : Option String := none
deriving DecidableEq

/-- An `object[@class='BodyContent']` record.  `contentId` is the id nested
under the `content` property; `contentClass` is that property's `class`
attribute (`none` when the attribute is missing, which the source stores as
Python `None`). -/
structure BodyRec where
  id : Option String := none
  body : Option String := none
  bodyType : Option String := none
  contentId : Option String := none
  contentClass : Option String := none
deriving DecidableEq

/-- A parsed `entities.xml` document: its object records grouped by class,
each group in document order (`Page` and `BlogPost` objects share one list,
tagged by `PageRec.recClass`, because the page-extraction passes scan them
by class). -/
structure XmlFile where
  users : List UserRec := []
  spaces : List SpaceRec := []
  pages : List PageRec := []
  comments : List CommentRec := []
  attachments : List AttRec := []
  outgoingLinks : List LinkRec := []
  labels : List LabelRec := []
  labellings : List LabellingRec := []
  pageProperties : List PropRec := []
  bodyContents : List BodyRec := []
deriving DecidableEq

/-! ## XML ingestion passes -/

/-- `_extract_users`: first file wins, existing users are never
overwritten. -/
def extract_users (file : XmlFile) (st : Store) : Store :=
  file.users.foldl
    (fun st u =>
      match u.id with
      | none => st
      | some user_id =>
        if dmem st.users user_id then st
        else
          let usr : User :=
            { id := user_id, name := u.name.getD "", lowerName := u.lowerName.getD "",
              email := u.email.getD "" }
          { st with users := dinsert st.users user_id usr })
    st

/-- `_extract_spaces`: each space record with an ID is (re)stored with fresh
empty member-ID sets. -/
def extract_spaces (file : XmlFile) (st : Store) : Store :=
  file.spaces.foldl
    (fun st s =>
      match s.id with
      | none => st
      | some space_id =>
        let sp : Space :=
          { id := space_id, name := s.name.getD "", key := s.key.getD "",
            creatorId := s.creatorId.getD "", creationDate := s.creationDate.getD "",
            lastModifierId := s.lastModifierId.getD "",
            lastModificationDate := s.lastModificationDate.getD "",
            homePageId := s.homePageId.getD "" }
        { st with spaces := dinsert st.spaces space_id sp })
    st

/-- The hibernate version used for de-duplication (`0` when absent or
unparseable). -/
def hvOf (r : PageRec) : Int := r.hibernateVersion.getD 0

/-- An entry of the `page_versions` / `blog_versions` dict: the running
maximal `hibernateVersion` for a title, together with the record that
achieved it. -/
structure PVEntry where
  hv : Int
  rcd : PageRec
deriving DecidableEq

/-- First pass of `_extract_pages` over `object[@class='Page']` records:
skip drafts and untitled records, self-map every surviving ID in
`page_id_mapping`, and keep per title the record with the strictly greatest
`hibernateVersion` seen so far. -/
def pagesPass1 : List PageRec → List (String × String) → List (String × PVEntry) →
    List (String × String) × List (String × PVEntry)
  | [], m, v => (m, v)
  | r :: rest, m, v =>
    if r.recClass = "Page" then
      if r.contentStatus = some "draft" then pagesPass1 rest m v
      else
        match r.title with
        | none => pagesPass1 rest m v
        | some title =>
          let page_id := r.id.getD "unknown"
          let m := dinsert m page_id page_id
          let v :=
            match dget v title with
            | none => dinsert v title ⟨hvOf r, r⟩
            | some e => if hvOf r > e.hv then dinsert v title ⟨hvOf r, r⟩ else v
          pagesPass1 rest m v
    else pagesPass1 rest m v

/-- First pass of `_extract_pages` over `object[@class='BlogPost']` records:
additionally skips records without an ID and records whose status is
`deleted`. -/
def blogsPass1 : List PageRec → List (String × String) → List (String × PVEntry) →
    List (String × String) × List (String × PVEntry)
  | [], m, v => (m, v)
  | r :: rest, m, v =>
    if r.recClass = "BlogPost" then
      match r.id with
      | none => blogsPass1 rest m v
      | some blog_id =>
        match r.title with
        | none => blogsPass1 rest m v
        | some title =>
          if r.contentStatus = some "draft" then blogsPass1 rest m v
          else if r.contentStatus = some "deleted" then blogsPass1 rest m v
          else
            let m := dinsert m blog_id blog_id
            let v :=
              match dget v title with
              | none => dinsert v title ⟨hvOf r, r⟩
              | some e => if hvOf r > e.hv then dinsert v title ⟨hvOf r, r⟩ else v
            blogsPass1 rest m v
    else blogsPass1 rest m v

/-- The inner loop of the second pass of `_extract_pages`: alias every
record of class `cls` whose title matches to the surviving ID. -/
def mapTitleIds (cls title newest : String) :
    List PageRec → List (String × String) → List (String × String)
  | [], m => m
  | r :: rest, m =>
    let m :=
      if r.recClass = cls ∧ r.title = some title then
        match r.id with
        | some old_id => dinsert m old_id newest
        | none => m
      else m
    mapTitleIds cls title newest rest m

/-- The page dict built by `_extract_page_item` (detail fields of the
canonical record).  The XML re-serialization the source performs to recover
CDATA-wrapped titles re-escapes XML entities; that round trip is the
identity for titles without XML-special characters and is modelled as such. -/
def mkStoredPage (cfg : Cfg) (r : PageRec) (page_type : String) (page_id space_id : String) :
    StoredPage :=
  { id := page_id
    type := page_type
    title := sanitize_filename cfg (r.title.getD page_id)
    version := r.version.getD 0
    status := if page_type = "Page" then r.pageStatus.getD "" else r.contentStatus.getD ""
    spaceId := space_id
    parentId := if page_type = "Page" then r.parentId.getD "" else ""
    creatorId := r.creatorId.getD ""
    creationDate := r.creationDate.getD ""
    lastModifierId := r.lastModifierId.getD ""
    lastModificationDate := r.lastModificationDate.getD "" }

/-- `_extract_page_item`: store the canonical page record and update the
space's member set and the title lookup dicts. -/
def extract_page_item (cfg : Cfg) (r : PageRec) (space_id : String) (st : Store) : Store :=
  match r.id with
  | none => st
  | some page_id =>
    let pg := mkStoredPage cfg r "Page" page_id space_id
    let st :=
      match dget st.spaces space_id with
      | some sp =>
        let sp2 : Space := { sp with pageIds := saddList sp.pageIds page_id }
        { st with spaces := dinsert st.spaces space_id sp2 }
      | none => st
    { st with
      page := dinsert st.page page_id pg
      page_by_title := dinsert st.page_by_title pg.title page_id
      page_by_title_space := dinsert st.page_by_title_space (pg.title ++ ":" ++ space_id) page_id }

/-- `_extract_blog_item`: like `_extract_page_item` but the space comes from
the record's own `space` property and the record is skipped when it is
missing or empty. -/
def extract_blog_item (cfg : Cfg) (r : PageRec) (st : Store) : Store :=
  match r.id with
  | none => st
  | some blog_id =>
    match r.spaceId with
    | none => st
    | some space_id =>
      if space_id = "" then st
      else
        let pg := mkStoredPage cfg r "BlogPost" blog_id space_id
        let st :=
          match dget st.spaces space_id with
          | some sp =>
            let sp2 : Space := { sp with blogPostIds := saddList sp.blogPostIds blog_id }
            { st with spaces := dinsert st.spaces space_id sp2 }
          | none => st
        { st with
          page := dinsert st.page blog_id pg
          page_by_title := dinsert st.page_by_title pg.title blog_id
          page_by_title_space :=
            dinsert st.page_by_title_space (pg.title ++ ":" ++ space_id) blog_id }

/-- Second pass of `_extract_pages` for pages: for each surviving title (in
`page_versions` insertion order) alias all same-titled page IDs to the
survivor and store the survivor's details. -/
def pagesPass2 (cfg : Cfg) (recs : List PageRec) (space_id : String) :
    List (String × PVEntry) → Store → Store
  | [], st => st
  | (title, e) :: rest, st =>
    let newest := e.rcd.id.getD "unknown"
    let st := { st with
      page_id_mapping := mapTitleIds "Page" title newest recs st.page_id_mapping }
    let st := extract_page_item cfg e.rcd space_id st
    pagesPass2 cfg recs space_id rest st

/-- Second pass of `_extract_pages` for blog posts. -/
def blogsPass2 (cfg : Cfg) (recs : List PageRec) :
    List (String × PVEntry) → Store → Store
  | [], st => st
  | (title, e) :: rest, st =>
    let newest := e.rcd.id.getD "unknown"
    let st := { st with
      page_id_mapping := mapTitleIds "BlogPost" title newest recs st.page_id_mapping }
    let st := extract_blog_item cfg e.rcd st
    blogsPass2 cfg recs rest st

/-- The space ID `_extract_pages` works under: the first `Space` object
with a non-empty ID. -/
def firstSpaceId (file : XmlFile) : Option String :=
  file.spaces.findSome? (fun s => s.id)

/-- `_extract_pages`: two-pass version consolidation for pages and blog
posts (no space ID means no page processing at all). -/
def extract_pages (cfg : Cfg) (file : XmlFile) (st : Store) : Store :=
  match firstSpaceId file with
  | none => st
  | some space_id =>
    let (m1, pv) := pagesPass1 file.pages st.page_id_mapping []
    let (m2, bv) := blogsPass1 file.pages m1 []
    let st := { st with page_id_mapping := m2 }
    let st := pagesPass2 cfg file.pages space_id pv st
    blogsPass2 cfg file.pages bv st

end Conf

namespace Conf

/-- `_extract_comments`. -/
def extract_comments (file : XmlFile) (st : Store) : Store :=
  file.comments.foldl
    (fun st c =>
      match c.id with
      | none => st
      | some comment_id =>
        let cm : Comment :=
          { id := comment_id, creatorId := c.creatorId.getD "",
            creationDate := c.creationDate.getD "",
            containerContentId := c.containerContentId.getD "" }
        { st with comments := dinsert st.comments comment_id cm })
    st

/-- `_extract_body_page`: collect `(content_id, body_dict)` relations for
bodies whose `content` property carries an ID.  The dict's `content_class`
key holds the `class` attribute, which may be Python `None`. -/
def extract_body_page (file : XmlFile) : List (String × Body) :=
  file.bodyContents.foldl
    (fun acc b =>
      match b.id with
      | none => acc
      | some body_id =>
        match b.contentId with
        | none => acc
        | some content_id =>
          let bd : Body :=
            { id := body_id, body := clean_cdata (b.body.getD ""),
              bodyType := b.bodyType.getD "", content_class := some b.contentClass }
          acc ++ [(content_id, bd)])
    []

/-- `_apply_body_page_relations`.  `body.get("content_class", "")` yields
Python `None` when the `class` attribute was absent, and the subsequent
`"Comment" in None` raises a `TypeError`; the `none` result models that
exception (it propagates to `add_xml_file`'s catch-all handler). -/
def apply_body_page_relations :
    List (String × Body) → Store → Nat → Nat → Option (Store × Nat × Nat)
  | [], st, succ, miss => some (st, succ, miss)
  | (content_id, bd) :: rest, st, succ, miss =>
    match bd.content_class with
    | some none => none
    | cc =>
      let cls := match cc with
        | some (some c) => c
        | _ => ""
      if strContains cls "Comment" then
        match dget st.comments content_id with
        | some cm =>
          apply_body_page_relations rest
            { st with comments := dinsert st.comments content_id { cm with bodypage := some bd } }
            (succ + 1) miss
        | none => apply_body_page_relations rest st succ (miss + 1)
      else
        match dget st.page content_id with
        | some pg =>
          apply_body_page_relations rest
            { st with page := dinsert st.page content_id { pg with bodypage := some bd } }
            (succ + 1) miss
        | none => apply_body_page_relations rest st succ (miss + 1)

/-- `_link_comments_to_pages`: append every comment with a known container
page to that page's comment list. -/
def link_comments_to_pages (st : Store) : Store :=
  st.comments.foldl
    (fun st p =>
      let cm := p.2
      if cm.containerContentId ≠ "" then
        match dget st.page cm.containerContentId with
        | some pg =>
          let pg2 : StoredPage := { pg with comments := pg.comments ++ [cm] }
          { st with page := dinsert st.page cm.containerContentId pg2 }
        | none => st
      else st)
    st

/-- `_extract_attachments`. -/
def extract_attachments (cfg : Cfg) (file : XmlFile) (st : Store) : Store :=
  file.attachments.foldl
    (fun st a =>
      match a.id with
      | none => st
      | some att_id =>
        let att : Attachment :=
          { id := att_id
            title := match a.title with
              | some t => sanitize_filename cfg t
              | none => ""
            creatorId := a.creatorId.getD ""
            lastModifierId := a.lastModifierId.getD ""
            creationDate := a.creationDate.getD ""
            lastModificationDate := a.lastModificationDate.getD ""
            version := a.version.getD 0
            hibernateVersion := a.hibernateVersion.getD 0
            containerContent_id := a.containerContent_id.getD ""
            space_id := a.space_id.getD "" }
        { st with attachments := dinsert st.attachments att_id att })
    st

/-- `_extract_outgoing_links`. -/
def extract_outgoing_links (file : XmlFile) (st : Store) : Store :=
  file.outgoingLinks.foldl
    (fun st l =>
      match l.id with
      | none => st
      | some link_id =>
        let lk : OutLink :=
          { id := link_id, destinationPageTitle := l.destinationPageTitle.getD "",
            destinationSpaceKey := l.destinationSpaceKey.getD "" }
        match l.sourcePageId with
        | none => st
        | some page_id =>
          match dget st.page page_id with
          | some pg =>
            let pg2 : StoredPage := { pg with outgoingLinks := pg.outgoingLinks ++ [lk] }
            { st with page := dinsert st.page page_id pg2 }
          | none => st)
    st

/-- `_extract_labels_and_labellings`. -/
def extract_labels_and_labellings (file : XmlFile) (st : Store) : Store :=
  let st := file.labels.foldl
    (fun st l =>
      match l.id with
      | none => st
      | some label_id =>
        let lb : Label :=
          { id := label_id
            name := match l.name with
              | some n => clean_cdata n
              | none => ""
            nspace := l.nspace.getD "" }
        { st with label_by_id := dinsert st.label_by_id label_id lb })
    st
  file.labellings.foldl
    (fun st lg =>
      match lg.labelId with
      | none => st
      | some label_id =>
        match dget st.label_by_id label_id with
        | none => st
        | some lb =>
          match lg.pageId with
          | none => st
          | some page_id =>
            match dget st.page page_id with
            | some pg =>
              let pg2 : StoredPage := { pg with labels := pg.labels ++ [lb] }
              { st with page := dinsert st.page page_id pg2 }
            | none => st)
    st

/-- `_extract_page_properties`. -/
def extract_page_properties (file : XmlFile) (st : Store) : Store :=
  file.pageProperties.foldl
    (fun st pr =>
      match pr.id with
      | none => st
      | some prop_id =>
        let pp : PageProp :=
          { id := prop_id, name := pr.name.getD "", stringValue := pr.stringValue.getD "" }
        match pr.pageId with
        | none => st
        | some page_id =>
          match dget st.page page_id with
          | some pg =>
            let pg2 : StoredPage := { pg with pageProperties := pg.pageProperties ++ [pp] }
            { st with page := dinsert st.page page_id pg2 }
          | none => st)
    st

/-- `_build_helper_indexes`. -/
def build_helper_indexes (st : Store) : Store :=
  let st := st.spaces.foldl
    (fun st p =>
      if p.2.key ≠ "" then
        { st with space_by_key := dinsert st.space_by_key p.2.key p.1 }
      else st)
    st
  st.page.foldl
    (fun st p =>
      if p.2.title ≠ "" then
        { st with page_by_title := dinsert st.page_by_title p.2.title p.1 }
      else st)
    st

/-- `_underscore_homepage_titles` (with its default
`prepend_underscore=True`). -/
def underscore_homepage_titles (st : Store) : Store :=
  st.spaces.foldl
    (fun st p =>
      let space_id := p.1
      let sp := p.2
      if sp.homePageId = "" then st
      else
        match dget st.page sp.homePageId with
        | none => st
        | some homepage =>
          if strStartsWith homepage.title "_" then st
          else
            let original_title := homepage.title
            let new_title := "_" ++ original_title
            let hp2 : StoredPage := { homepage with title := new_title }
            let st := { st with page := dinsert st.page sp.homePageId hp2 }
            let st :=
              if dmem st.page_by_title original_title then
                { st with page_by_title :=
                    dinsert (ddel st.page_by_title original_title) new_title sp.homePageId }
              else st
            let old_key := original_title ++ ":" ++ space_id
            let new_key := new_title ++ ":" ++ space_id
            if dmem st.page_by_title_space old_key then
              { st with page_by_title_space :=
                  dinsert (ddel st.page_by_title_space old_key) new_key sp.homePageId }
            else st)
    st

/-- `add_xml_file`: the guarded ingestion entry point.  The file system of
XML documents is a map from path to parsed document; `none` models both a
missing file and a parse error, which the source reports identically as a
`False` return.  The body-relation pass may raise (see
`apply_body_page_relations`); the catch-all handler then returns `False`
with the mutations of the earlier passes retained, exactly as in the
source. -/
def add_xml_file (cfg : Cfg) (xfs : String → Option XmlFile) (st : Store) (xml_path : String) :
    Bool × Store :=
  if st.processed_xml_files.contains xml_path then (true, st)
  else
    match xfs xml_path with
    | none => (false, st)
    | some file =>
      let st := extract_users file st
      let st := extract_spaces file st
      let st := extract_pages cfg file st
      let st := extract_comments file st
      let relations := extract_body_page file
      match apply_body_page_relations relations st 0 0 with
      | none => (false, st)
      | some (st, _, _) =>
        let st := link_comments_to_pages st
        let st := extract_attachments cfg file st
        let st := extract_outgoing_links file st
        let st := extract_labels_and_labellings file st
        let st := extract_page_properties file st
        let st := { st with processed_xml_files := st.processed_xml_files ++ [xml_path] }
        let st := build_helper_indexes st
        let st := if cfg.UNDERSCORE_HOMEPAGE_TITLES then underscore_homepage_titles st else st
        (true, st)

end Conf

namespace Conf

/-! ## Attachment processing (`attachmentprocessor.py`) -/

/-- The `os.stat` data the copy policy consults. -/
structure FileStat where
  size : Int
  mtime : Int
deriving DecidableEq

/-- File-system snapshot: per-path file metadata and per-path directory
listings (`none` when the path is not a file / not a directory). -/
structure FS where
  stat : String → Option FileStat
  listDir : String → Option (List String)

/-- `os.path.exists`. -/
def fsExists (fs : FS) (p : String) : Bool :=
  (fs.stat p).isSome || (fs.listDir p).isSome

/-- `os.path.isdir`. -/
def fsIsDir (fs : FS) (p : String) : Bool :=
  (fs.listDir p).isSome

/-- `shutil.copy2 src dst` (metadata-preserving copy; the model keeps the
source's size and mtime, and treats the copy as succeeding — per-file copy
failures feed `missing_files`, which no verified property depends on). -/
def copy2 (fs : FS) (src dst : String) : FS :=
  { fs with stat := fun p => if p = dst then fs.stat src else fs.stat p }

/-- `should_copy_file`: `none` models the `FileNotFoundError` that
`os.stat(src)` raises when the source vanished (the destination is checked
first and short-circuits). -/
def should_copy_file (fs : FS) (src dst : String) : Option Bool :=
  if ¬ fsExists fs dst then some true
  else
    match fs.stat src, fs.stat dst with
    | some src_stat, some dst_stat =>
      if src_stat.size ≠ dst_stat.size then some true
      else some (src_stat.mtime > dst_stat.mtime)
    | _, _ => none

/-- The mutable state of `AttachmentProcessor`. -/
structure APState where
  file_mapping : List (String × String) := []
  missing_files : List String := []
  skipped_files : List String := []
  processed_attachments : List String := []
deriving DecidableEq

/-- `_get_extension_from_content_type`.  (The only call site passes
`att_details.get("contentType")`, and the attachment dicts built by
`_extract_attachments` never carry that key, so the argument is always
Python `None` and the result always `bin`.) -/
def get_extension_from_content_type (content_type : Option String) : String :=
  match content_type with
  | none => "bin"
  | some ct =>
    if ct = "" then "bin"
    else if ct = "image/png" then "png"
    else if ct = "image/jpeg" then "jpg"
    else if ct = "image/jpg" then "jpg"
    else if ct = "application/pdf" then "pdf"
    else if ct = "text/plain" then "txt"
    else if ct = "application/msword" then "doc"
    else if ct = "application/vnd.openxmlformats-officedocument.wordprocessingml.document" then "docx"
    else if ct = "application/vnd.ms-excel" then "xls"
    else if ct = "application/vnd.openxmlformats-officedocument.spreadsheetml.sheet" then "xlsx"
    else "bin"

/-- `filename.split(".")[0] if "." in filename else filename`: the text
before the first dot. -/
def beforeFirstDot (s : String) : String :=
  if strContains s "." then ⟨s.data.takeWhile (fun c => c ≠ '.')⟩ else s

/-- `filename.split(".")[-1]`: the text after the last dot. -/
def afterLastDot (s : String) : String :=
  ⟨(s.data.reverse.takeWhile (fun c => c ≠ '.')).reverse⟩

/-- The body of the per-file loop of `process_space_attachments` (direct
scheme, one on-disk file under a page directory). -/
def process_space_file (st : Store) (out_dir page_dir filename : String)
    (a : APState) (fs : FS) : APState × FS :=
  let src_path := page_dir ++ "/" ++ filename
  if a.processed_attachments.contains src_path then (a, fs)
  else
    match dget a.file_mapping src_path with
    | some dst_path =>
      -- already mapped: refresh the copy if needed, never touch the mapping
      (match should_copy_file fs src_path dst_path with
       | some true => (a, copy2 fs src_path dst_path)
       | some false => (a, fs)
       | none => ({ a with missing_files := saddList a.missing_files src_path }, fs))
    | none =>
      let a := { a with processed_attachments := saddList a.processed_attachments src_path }
      let att_id := beforeFirstDot filename
      match get_attachment_by_id st att_id with
      | none => ({ a with skipped_files := saddList a.skipped_files src_path }, fs)
      | some att_details =>
        let proper_title := if att_details.title = "" then filename else att_details.title
        let extension :=
          if strContains filename "." then afterLastDot filename
          else if strContains proper_title "." then afterLastDot proper_title
          else get_extension_from_content_type none
        let new_filename :=
          if ¬ strContains proper_title "." then proper_title ++ "." ++ extension
          else proper_title
        let dst_path := out_dir ++ "/" ++ new_filename
        match should_copy_file fs src_path dst_path with
        | some true =>
          ({ a with file_mapping := dinsert a.file_mapping src_path dst_path },
           copy2 fs src_path dst_path)
        | some false => (a, fs)
        | none => ({ a with missing_files := saddList a.missing_files src_path }, fs)

/-- The body of the per-page-directory loop of
`process_space_attachments`. -/
def process_space_page_dir (st : Store) (attachments_dir output_attachments_dir page_id : String)
    (a : APState) (fs : FS) : APState × FS :=
  let page_dir := attachments_dir ++ "/" ++ page_id
  if ¬ fsIsDir fs page_dir then (a, fs)
  else
    match get_page_by_id st page_id with
    | none => (a, fs)
    | some _ =>
      let out_dir := output_attachments_dir ++ "/" ++ page_id
      match fs.listDir page_dir with
      | none => (a, fs)
      | some files =>
        files.foldl (fun p f => process_space_file st out_dir page_dir f p.1 p.2) (a, fs)

/-- `process_space_attachments`. -/
def process_space_attachments (cfg : Cfg) (st : Store) (space_key : String)
    (a : APState) (fs : FS) : APState × FS :=
  let attachments_dir := cfg.INPUT_FOLDER ++ "/" ++ space_key ++ "/" ++ cfg.ATTACHMENTS_PATH
  if ¬ fsExists fs attachments_dir then (a, fs)
  else
    let output_attachments_dir := cfg.OUTPUT_FOLDER ++ "/" ++ space_key ++ "/" ++ cfg.ATTACHMENTS_PATH
    match fs.listDir attachments_dir with
    | none => (a, fs)
    | some page_id_dirs =>
      page_id_dirs.foldl
        (fun p pid => process_space_page_dir st attachments_dir output_attachments_dir pid p.1 p.2)
        (a, fs)

/-- `get_space_key_by_xml`: the key of the first space record with a
non-empty key text. -/
def get_space_key_by_xml (file : XmlFile) : Option String :=
  file.spaces.findSome? (fun s => s.key)

/-- The latest-version scan of `process_xml_attachments`: among file names
that parse as integers, keep the first name achieving the strictly greatest
value above `0`. -/
def latestVersionFile (att_dir : String) (files : List String) : Option String :=
  (files.foldl
    (fun acc f =>
      match pyInt? f with
      | none => acc
      | some v => if v > acc.1 then (v, some (att_dir ++ "/" ++ f)) else acc)
    ((0 : Int), (none : Option String))).2

/-- The body of the per-attachment-directory loop of
`process_xml_attachments` (versioned XML-bundle scheme). -/
def process_xml_att_dir (st : Store) (out_dir page_dir att_id : String)
    (a : APState) (fs : FS) : APState × FS :=
  let att_dir := page_dir ++ "/" ++ att_id
  if ¬ fsIsDir fs att_dir then (a, fs)
  else
    match get_attachment_by_id st att_id with
    | none => ({ a with skipped_files := saddList a.skipped_files att_dir }, fs)
    | some att_details =>
      match fs.listDir att_dir with
      | none => (a, fs)
      | some files =>
        match latestVersionFile att_dir files with
        | none => (a, fs)
        | some latest_file =>
          let new_filename :=
            if att_details.title = "" then "attachment_" ++ att_id else att_details.title
          let dst_path := out_dir ++ "/" ++ new_filename
          match should_copy_file fs latest_file dst_path with
          | some true =>
            ({ a with file_mapping := dinsert a.file_mapping latest_file dst_path },
             copy2 fs latest_file dst_path)
          | some false =>
            -- record the intended mapping even though no bytes move
            ({ a with file_mapping := dinsert a.file_mapping latest_file dst_path }, fs)
          | none => ({ a with missing_files := saddList a.missing_files latest_file }, fs)

/-- The body of the per-page-directory loop of `process_xml_attachments`. -/
def process_xml_page_dir (cfg : Cfg) (st : Store) (attachments_dir space_key page_id : String)
    (a : APState) (fs : FS) : APState × FS :=
  let page_dir := attachments_dir ++ "/" ++ page_id
  if ¬ fsIsDir fs page_dir then (a, fs)
  else
    match get_page_by_id st page_id with
    | none => (a, fs)
    | some _ =>
      let output_attachments_dir :=
        cfg.OUTPUT_FOLDER ++ "/" ++ space_key ++ "/" ++ cfg.ATTACHMENTS_PATH
      let out_dir := output_attachments_dir ++ "/" ++ page_id
      match fs.listDir page_dir with
      | none => (a, fs)
      | some att_ids =>
        att_ids.foldl (fun p aid => process_xml_att_dir st out_dir page_dir aid p.1 p.2) (a, fs)

/-- `process_xml_attachments` (the parsed document of `xml_path` is passed
alongside the path, standing for the source's re-parse in
`get_space_key_by_xml`). -/
def process_xml_attachments (cfg : Cfg) (st : Store) (xml_path : String) (file : XmlFile)
    (a : APState) (fs : FS) : APState × FS :=
  if xml_path = "" then (a, fs)
  else
    let xml_folder : String := ⟨pathDirname xml_path.data⟩
    let attachments_dir := xml_folder ++ "/" ++ cfg.ATTACHMENTS_PATH
    if ¬ fsExists fs attachments_dir then (a, fs)
    else
      match get_space_key_by_xml file with
      | none => (a, fs)
      | some space_key =>
        if space_key = "" then (a, fs)
        else
          match fs.listDir attachments_dir with
          | none => (a, fs)
          | some page_ids =>
            page_ids.foldl
              (fun p pid => process_xml_page_dir cfg st attachments_dir space_key pid p.1 p.2)
              (a, fs)

end Conf

namespace Conf

/-! ## Link resolution (`converter.py` `_process_link`)

Each rule of the prioritized chain is a function returning `some result`
when the corresponding branch of the source returns, and `none` when it
falls through to the next rule. -/

/-- `current_dir.split(os.sep)[0] if os.sep in current_dir else
current_dir`. -/
def firstSegment (current_dir : String) : String :=
  if strContains current_dir "/" then ⟨current_dir.data.takeWhile (fun c => c ≠ '/')⟩
  else current_dir

/-- `os.path.relpath(new_path, OUTPUT_FOLDER)`, modelled for the case the
code exercises: a mapped output path below the output folder (otherwise the
path is returned unchanged). -/
def relpathFromOutput (cfg : Cfg) (new_path : String) : String :=
  if strStartsWith new_path (cfg.OUTPUT_FOLDER ++ "/") then
    ⟨new_path.data.drop (cfg.OUTPUT_FOLDER ++ "/").data.length⟩
  else new_path

/-- Skip empty links (`not link or link.strip() == ""`). -/
def ruleEmpty (link : String) : Option String :=
  if link = "" ∨ pyStrip link = "" then some "" else none

/-- External web links, excluding links that start with the literal
`https://confluence`. -/
def ruleExternal (link : String) : Option String :=
  if (strStartsWith link "http://" || strStartsWith link "https://") &&
      !strStartsWith link "https://confluence" then some link
  else none

/-- Local `file://` links. -/
def ruleFile (link : String) : Option String :=
  if strStartsWith link "file://" then some link else none

/-- The scan over all spaces in the `index.html` branch: the first space
with a homepage whose title resolves to a non-empty string. -/
def homepageScan (st : Store) : Option String :=
  st.spaces.findSome? (fun p =>
    if p.2.homePageId ≠ "" then
      match get_page_title_by_id st p.2.homePageId with
      | some t => if t ≠ "" then some (t ++ ".md") else none
      | none => none
    else none)

/-- The `index.html` homepage branch. -/
def ruleHomepage (st : Store) (current_dir link : String) : Option String :=
  if link = "index.html" then
    let space_key := firstSegment current_dir
    let byKey : Option String :=
      match get_space_by_key st space_key with
      | some sp =>
        if sp.homePageId ≠ "" then
          match get_page_title_by_id st sp.homePageId with
          | some t => if t ≠ "" then some (t ++ ".md") else none
          | none => none
        else none
      | none => none
    match byKey with
    | some r => some r
    | none =>
      match homepageScan st with
      | some r => some r
      | none => some "index.md"
  else none

/-- The attachment/download branch.  Its condition is a substring test
against the configured attachments path; the ID regex inside is the
hardcoded `attachments/\d+/(\d+)|download/attachments/\d+/(\d+)`. -/
def ruleAttachment (cfg : Cfg) (st : Store) (ap : APState) (current_dir link : String) :
    Option String :=
  if strContains link (cfg.ATTACHMENTS_PATH ++ "/") ||
      strContains link ("download/" ++ cfg.ATTACHMENTS_PATH ++ "/") then
    let byId : Option String :=
      match extractAttachmentId link with
      | none => none
      | some attachment_id =>
        match get_attachment_by_id st attachment_id with
        | none => none
        | some att =>
          let parent_page_id := att.containerContent_id
          let space_key := pyStr (get_space_key_by_page_id st parent_page_id)
          some (space_key ++ "/" ++ cfg.ATTACHMENTS_PATH ++ "/" ++ parent_page_id ++ "/" ++
            att.title)
    match byId with
    | some r => some r
    | none =>
      let link_filename : String := ⟨pathBasename (link.data.takeWhile (fun c => c ≠ '?'))⟩
      let decoded_filename := sanitize_filename cfg link_filename
      let page_id? := extractDigitsBetween link (cfg.ATTACHMENTS_PATH ++ "/")
      let byTitle : Option String :=
        match page_id? with
        | none => none
        | some page_id =>
          (get_attachments_by_page_id st page_id).findSome? (fun att =>
            if att.title == link_filename || att.title == decoded_filename then
              let parent_page_id := att.containerContent_id
              let space_key := pyStr (get_space_key_by_page_id st parent_page_id)
              some (space_key ++ "/" ++ cfg.ATTACHMENTS_PATH ++ "/" ++ parent_page_id ++ "/" ++
                att.title)
            else none)
      match byTitle with
      | some r => some r
      | none =>
        let byMapping : Option String :=
          match page_id? with
          | none => none
          | some page_id =>
            if ap.file_mapping ≠ [] then
              ap.file_mapping.findSome? (fun p =>
                if strContains p.1 page_id &&
                    (strContains ⟨pathBasename p.2.data⟩ link_filename ||
                     strContains ⟨pathBasename p.2.data⟩ decoded_filename) then
                  some (relpathFromOutput cfg p.2)
                else none)
            else none
        match byMapping with
        | some r => some r
        | none =>
          match page_id? with
          | some page_id =>
            if current_dir ≠ "" then
              let space_key := firstSegment current_dir
              some (space_key ++ "/" ++ cfg.ATTACHMENTS_PATH ++ "/" ++ page_id ++ "/" ++
                link_filename)
            else some link
          | none => some link
  else none

/-- The `/pages/viewpage.action?pageId=` branch. -/
def ruleViewPage (cfg : Cfg) (st : Store) (link : String) : Option String :=
  if strContains link "/pages/viewpage.action" && strContains link "pageId=" then
    match extractAfterMarker link "pageId=" with
    | none => none
    | some page_id =>
      match get_page_by_id st page_id with
      | none => some link
      | some p =>
        if p.type = "BlogPost" then
          match get_space_by_id st p.spaceId with
          | some sp =>
            if sp.key ≠ "" then some (sp.key ++ "/" ++ cfg.BLOGPOST_PATH ++ "/" ++ p.title ++ ".md")
            else some (p.title ++ ".md")
          | none => some (p.title ++ ".md")
        else
          match get_space_by_id st p.spaceId with
          | some sp =>
            if sp.key ≠ "" then some (sp.key ++ "/" ++ p.title ++ ".md")
            else some (p.title ++ ".md")
          | none => some (p.title ++ ".md")
  else none

/-- The `/pages/editblogpost.action?pageId=` branch (routes under the
blogpost path without consulting the page's `type`; falls through when the
page is unknown). -/
def ruleEditBlog (cfg : Cfg) (st : Store) (link : String) : Option String :=
  if strContains link "/pages/editblogpost.action" && strContains link "pageId=" then
    match extractAfterMarker link "pageId=" with
    | none => none
    | some page_id =>
      match get_page_by_id st page_id with
      | none => none
      | some p =>
        if p.spaceId ≠ "" then
          match get_space_by_id st p.spaceId with
          | some sp =>
            if sp.key ≠ "" then
              some (sp.key ++ "/" ++ cfg.BLOGPOST_PATH ++ "/" ++ p.title ++ ".md")
            else some (p.title ++ ".md")
          | none => some (p.title ++ ".md")
        else some (p.title ++ ".md")
  else none

/-- The `/label/<tag>` branch. -/
def ruleLabelByName (link : String) : Option String :=
  if strContains link "/label/" then
    let parts := splitChar link.data '/'
    if parts.length ≥ 3 then
      match parts.getLast? with
      | some tag => some ("#" ++ ⟨tag⟩)
      | none => none
    else none
  else none

/-- The `/labels/...?ids=<id>` branch. -/
def ruleLabelById (st : Store) (link : String) : Option String :=
  if strContains link "/labels/" then
    match extractAfterMarker link "ids=" with
    | none => none
    | some label_id =>
      match dget st.label_by_id label_id with
      | some lb => some ("#" ++ lb.name)
      | none => some ("#label_" ++ label_id)
  else none

/-- `link.split(sep)[1]`: the text between the first and (if any) second
occurrence of `sep`. -/
def betweenFirstTwo (link sep : String) : String :=
  match splitFirst link.data sep.data with
  | none => ""
  | some p =>
    match splitFirst p.2 sep.data with
    | none => ⟨p.2⟩
    | some q => ⟨q.1⟩

/-- The `/display/~username` branch. -/
def ruleUserPath (link : String) : Option String :=
  if strContains link "/display/~" then
    some ("@" ++ pyStrip (betweenFirstTwo link "/display/~"))
  else none

/-- The `/display/<spaceKey>[/<pageTitle>]` branch.  Verification against
the Entity Store only affects logging: both the verified and the
unverified paths return the same `<spaceKey>/<title>.md` (resp.
`<spaceKey>.md`) string, so the branch is modelled by its common result. -/
def ruleDisplay (cfg : Cfg) (link : String) : Option String :=
  if strContains link "/display/" && !strContains link "/display/~" then
    match splitFirst link.data "/display/".data with
    | none => none
    | some p =>
      let after := p.2
      if after.contains '/' then
        let space_key : String := ⟨after.takeWhile (fun c => c ≠ '/')⟩
        let title_raw : List Char := (after.dropWhile (fun c => c ≠ '/')).drop 1
        let title0 : String := ⟨title_raw.map (fun c => if c = '+' then ' ' else c)⟩
        let page_title := sanitize_filename cfg title0
        some (space_key ++ "/" ++ page_title ++ ".md")
      else some ((⟨after⟩ : String) ++ ".md")
  else none

/-- `re.search(r'data-username="([^"]+)"', s)`. -/
def extractDataUsername (link : String) : Option String :=
  (extractRun (fun c => c ≠ '"') ("data-username=" ++ "\"").data link.data).map (fun l => ⟨l⟩)
where
  /-- Leftmost occurrence of `marker` followed by a non-empty maximal run of
  characters satisfying `p`. -/
  extractRun (p : Char → Bool) (marker : List Char) : List Char → Option (List Char)
    | [] => none
    | x :: t =>
      if marker.isPrefixOf (x :: t) then
        let d := ((x :: t).drop marker.length).takeWhile p
        if d.isEmpty then extractRun p marker t else some d
      else extractRun p marker t

/-- `re.search(r'/display/~([^\s"]+)', s)`. -/
def extractDisplayUser (link : String) : Option String :=
  (extractDataUsername.extractRun (fun c => !isPySpace c && c ≠ '"') "/display/~".data
    link.data).map (fun l => ⟨l⟩)

/-- The `userLogoLink` / `data-username` branch (always returns, possibly
the empty string). -/
def ruleUserLogo (link : String) : Option String :=
  if strContains link "userLogoLink" || strContains link "data-username" then
    match extractDataUsername link with
    | some username => some ("@" ++ pyStrip username)
    | none =>
      match extractDisplayUser link with
      | some username => some ("@" ++ pyStrip username)
      | none => some ""
  else none

/-- Resolution by a page ID embedded in a file name, shared by the
`Title_1234567.html` and `1234567.html` branches (falls through when the
page is unknown). -/
def resolveByFilenameId (st : Store) (page_id? : Option String) :
    Option String :=
  match page_id? with
  | none => none
  | some page_id =>
    match get_page_by_id st page_id with
    | none => none
    | some p =>
      if p.spaceId ≠ "" then
        match get_space_by_id st p.spaceId with
        | some sp =>
          if sp.key ≠ "" then some (sp.key ++ "/" ++ p.title ++ ".md")
          else some (p.title ++ ".md")
        | none => some (p.title ++ ".md")
      else some (p.title ++ ".md")

/-- `os.path.splitext(link)[0]`: strip the last extension of the basename
(leading dots of the basename never start an extension). -/
def pySplitextStem (s : String) : String :=
  let b := pathBasename s.data
  let dir := s.data.take (s.data.length - b.length)
  let lead := b.takeWhile (fun c => c = '.')
  let rest := b.drop lead.length
  if rest.contains '.' then
    let extLen := (rest.reverse.takeWhile (fun c => c ≠ '.')).length + 1
    ⟨dir ++ lead ++ rest.take (rest.length - extLen)⟩
  else s

/-- The residual `.html` → `.md` rewrite. -/
def ruleHtmlToMd (link : String) : Option String :=
  if strEndsWith link ".html" then some (pySplitextStem link ++ ".md") else none

/-- The create-new-space dialog link (dropped). -/
def ruleCreateDialog (cfg : Cfg) (link : String) : Option String :=
  if strStartsWith link (cfg.CONFLUENCE_BASE_URL ++ "?createDialogSpaceKey") then some ""
  else none

/-- The final fallback: look the sanitized link text up in the file-mapping
table (by substring), and otherwise return the link unchanged. -/
def ruleFinal (cfg : Cfg) (ap : APState) (link : String) : String :=
  let link_sanitized := sanitize_filename cfg link
  if link_sanitized ≠ "" then
    match ap.file_mapping.findSome? (fun p =>
        if strContains p.1 link_sanitized &&
            strContains ⟨pathBasename p.2.data⟩ link_sanitized then
          some (relpathFromOutput cfg p.2)
        else none) with
    | some r => r
    | none => link
  else link

/-- The rule chain of `_process_link` up to (but excluding) the final
fallback, as one prioritized alternative. -/
def orD (a b : Option String) : Option String :=
  match a with
  | some r => some r
  | none => b

def ruleChain (cfg : Cfg) (st : Store) (ap : APState) (link current_dir : String) :
    Option String :=
  orD (ruleEmpty link) (
  orD (ruleExternal link) (
  orD (ruleFile link) (
  orD (ruleHomepage st current_dir link) (
  orD (ruleAttachment cfg st ap current_dir link) (
  orD (ruleViewPage cfg st link) (
  orD (ruleEditBlog cfg st link) (
  orD (ruleLabelByName link) (
  orD (ruleLabelById st link) (
  orD (ruleUserPath link) (
  orD (ruleDisplay cfg link) (
  orD (ruleUserLogo link) (
  orD (resolveByFilenameId st (extractUnderscoreIdHtml link)) (
  orD (resolveByFilenameId st (extractIdHtml link)) (
  orD (ruleHtmlToMd link) (
  ruleCreateDialog cfg link)))))))))))))))

/-- `_process_link`: the prioritized rule chain; the first matching rule
wins, and the final fallback consults the file-mapping table before
returning the link unchanged. -/
def process_link (cfg : Cfg) (st : Store) (ap : APState) (link current_dir : String) : String :=
  (ruleChain cfg st ap link current_dir).getD (ruleFinal cfg ap link)

end Conf

namespace Conf

/-! ## Definitions used to state the consolidation properties -/

/-- The IDs carried by a list of page/blog records. -/
def recIds (recs : List PageRec) : List String :=
  recs.filterMap (fun r => r.id)

/-- The IDs of the records of class `cls` titled `title` (the IDs the inner
loop of `_extract_pages`'s second pass aliases for that title). -/
def titleIdsC (recs : List PageRec) (cls title : String) : List String :=
  recs.filterMap (fun r => if r.recClass = cls ∧ r.title = some title then r.id else none)

/-- A `Page` record that survives the first-pass filtering (non-draft,
titled). -/
def eligPage (r : PageRec) : Prop :=
  r.recClass = "Page" ∧ r.contentStatus ≠ some "draft" ∧ r.title.isSome

/-- A `BlogPost` record that survives the first-pass filtering (has an ID,
titled, neither draft nor deleted). -/
def eligBlog (r : PageRec) : Prop :=
  r.recClass = "BlogPost" ∧ r.id.isSome ∧ r.title.isSome ∧
  r.contentStatus ≠ some "draft" ∧ r.contentStatus ≠ some "deleted"

/-- The group of records of class `cls` sharing the title `title`. -/
def groupRecs (recs : List PageRec) (cls title : String) : List PageRec :=
  recs.filter (fun r => r.recClass = cls && r.title == some title)

/-! ## Mapping recording on skipped copies (C5)

A concrete scenario exercising both attachment schemes with a fresh
destination (equal size, source not newer, so `should_copy_file` says
skip). -/

/-- Entity Store for the C5 scenario: page `100` in space `ENG`, attachment
`200` titled `file.txt` owned by page `100`. -/
def c5Store : Store :=
  { page := [("100", { id := "100", type := "Page", title := "P", spaceId := "s1" })],
    spaces := [("s1", { id := "s1", key := "ENG" })],
    attachments := [("200", { id := "200", title := "file.txt",
                              containerContent_id := "100" })] }

/-- File system for the C5 scenario: the direct-scheme source
`input/ENG/attachments/100/200.txt` and the versioned source
`.../attachments/100/200/2` both carry the same size and mtime as the
already-present destination `output/ENG/attachments/100/file.txt`. -/
def c5Fs : FS :=
  { stat := fun p =>
      if p = "input/ENG/attachments/100/200.txt" then some ⟨5, 10⟩
      else if p = "output/ENG/attachments/100/file.txt" then some ⟨5, 10⟩
      else if p = "input-xml/Confluence-space-export-ENG-1/attachments/100/200/2" then
        some ⟨5, 10⟩
      else if p = "input-xml/Confluence-space-export-ENG-1/attachments/100/200/1" then
        some ⟨4, 3⟩
      else none,
    listDir := fun p =>
      if p = "input/ENG/attachments" then some ["100"]
      else if p = "input/ENG/attachments/100" then some ["200.txt"]
      else if p = "input-xml/Confluence-space-export-ENG-1/attachments" then some ["100"]
      else if p = "input-xml/Confluence-space-export-ENG-1/attachments/100" then some ["200"]
      else if p = "input-xml/Confluence-space-export-ENG-1/attachments/100/200" then
        some ["1", "2"]
      else none }

/-- The parsed XML document of the C5 scenario's export bundle. -/
def c5File : XmlFile := { spaces := [{ id := some "s1", key := some "ENG" }] }

/-! ## Alias-table idempotence (C10) -/

/-- First export of the C10 counterexample: title `T` as pages `1` (hv 1)
and `2` (hv 2). -/
def c10File1 : XmlFile :=
  { spaces := [{ id := some "s1", key := some "K" }],
    pages := [{ recClass := "Page", id := some "1", title := some "T",
                hibernateVersion := some 1 },
              { recClass := "Page", id := some "2", title := some "T",
                hibernateVersion := some 2 }] }

/-- Second export of the C10 counterexample: the same page `2` plus a newer
revision `3` (hv 3) of title `T`. -/
def c10File2 : XmlFile :=
  { spaces := [{ id := some "s1", key := some "K" }],
    pages := [{ recClass := "Page", id := some "2", title := some "T",
                hibernateVersion := some 2 },
              { recClass := "Page", id := some "3", title := some "T",
                hibernateVersion := some 3 }] }

/-- The XML document map of the C10 counterexample. -/
def c10Xfs : String → Option XmlFile :=
  fun p => if p = "f1" then some c10File1 else if p = "f2" then some c10File2 else none



/-- Export used to witness the consolidation property: title `T` appears as
pages `1` (hv 1) and `2` (hv 2); title `BT` appears as blog posts `3`
(hv 1) and `4` (hv 5), both in space `s1`. -/
def c1File : XmlFile :=
  { spaces := [{ id := some "s1", key := some "ENG" }],
    pages := [
      { recClass := "Page", id := some "1", title := some "T",
        hibernateVersion := some 1 },
      { recClass := "Page", id := some "2", title := some "T",
        hibernateVersion := some 2 },
      { recClass := "BlogPost", id := some "3", title := some "BT",
        hibernateVersion := some 1, spaceId := some "s1" },
      { recClass := "BlogPost", id := some "4", title := some "BT",
        hibernateVersion := some 5, spaceId := some "s1" } ] }

/-! ## The download-attachments pass of `process_attachment_links`
(`linkchecker.py`) -/

/-- `get_attachment_by_filename`: strip any query string and directory from
the name, then scan the attachment dict for an exact title match. -/
def get_attachment_by_filename (st : Store) (filename : String) : Option Attachment :=
  let base_filename : String :=
    ⟨pathBasename (match splitFirst filename.data ['?'] with
                   | some p => p.1
                   | none => filename.data)⟩
  (st.attachments.find? (fun p => p.2.title == base_filename)).map (fun p => p.2)

/-- The replacement path `process_attachment_links` builds for one
`download/attachments/(\d+)/([^?]+)` hit (`linkchecker.py:873-904`):
`attachment_page_id` is the page ID captured from the link's own path,
`fname_cap` the captured filename, sanitized by the caller when it collects
the matches (line 828). The attachment record is looked up on the embedded
page's attachment list, then by bare filename — but both result branches
(lines 899 and 903) splice `attachment_page_id` into the path; the found
record's `containerContent_id` is never consulted. -/
def download_new_link (cfg : Cfg) (st : Store) (attachment_page_id fname_cap : String) :
    String :=
  let filename := sanitize_filename cfg fname_cap
  let space_key := pyStr (get_space_key_by_page_id st attachment_page_id)
  let decoded_filename := sanitize_filename cfg filename
  let found := (get_attachments_by_page_id st attachment_page_id).find?
      (fun att => att.title == filename || att.title == decoded_filename)
  let attachment := match found with
    | some att => some att
    | none => get_attachment_by_filename st filename
  match attachment with
  | some att => space_key ++ "/attachments/" ++ attachment_page_id ++ "/" ++ att.title
  | none =>
    space_key ++ "/attachments/" ++ attachment_page_id ++ "/" ++
      (if decoded_filename ≠ "" then decoded_filename else filename)

/-- Store of the C2 download-pass counterexample: attachment `456` titled
`Manual.pdf` is parented at page `789` (space key `ENG`), while page `111`
lives in space key `K`. -/
def c2DlStore : Store :=
  { spaces := [("s1", { id := "s1", key := "K" }), ("s2", { id := "s2", key := "ENG" })],
    page := [("111", { id := "111", type := "Page", title := "Src", spaceId := "s1" }),
             ("789", { id := "789", type := "Page", title := "Parent", spaceId := "s2" })],
    attachments := [("456", { id := "456", title := "Manual.pdf",
                              containerContent_id := "789" })] }

end Conf

namespace Conf

/-! # Theorems

First the generic lemmas about the dict model, then the claim theorems. -/

@[simp] theorem dget_nil {α : Type} (k : String) : dget ([] : List (String × α)) k = none := rfl

theorem dget_dinsert_self {α : Type} (m : List (String × α)) (k : String) (v : α) :
    dget (dinsert m k v) k = some v := by
  induction m with
  | nil => simp [dinsert, dget]
  | cons p rest ih =>
    by_cases h : p.1 = k
    · simp [dinsert, dget, h]
    · simp [dinsert, dget, h, ih]

theorem dget_dinsert_ne {α : Type} (m : List (String × α)) (k k' : String) (v : α)
    (h : k' ≠ k) : dget (dinsert m k v) k' = dget m k' := by
  induction m with
  | nil => simp [dinsert, dget]; exact fun hk => h hk.symm
  | cons p rest ih =>
    by_cases hp : p.1 = k
    · subst hp
      simp only [dinsert, if_pos rfl, dget]
      rw [if_neg (fun hk => h hk.symm), if_neg (fun hk => h hk.symm)]
    · simp only [dinsert, if_neg hp, dget]
      by_cases hq : p.1 = k'
      · simp [hq]
      · simp [hq, ih]

theorem dget_dinsert {α : Type} (m : List (String × α)) (k k' : String) (v : α) :
    dget (dinsert m k v) k' = if k = k' then some v else dget m k' := by
  by_cases h : k = k'
  · subst h; simp [dget_dinsert_self]
  · rw [if_neg h, dget_dinsert_ne m k k' v (fun hk => h hk.symm)]

@[simp] theorem orD_some (r : String) (b : Option String) : orD (some r) b = some r := rfl

@[simp] theorem orD_none (b : Option String) : orD none b = b := rfl

end Conf

namespace Conf

/-! ## Generic string lemmas -/

theorem stripWhile_eq_nil_iff (p : Char → Bool) (l : List Char) :
    stripWhile p l = [] ↔ ∀ x ∈ l, p x = true := by
  unfold stripWhile
  rw [List.reverse_eq_nil_iff, List.dropWhile_eq_nil_iff]
  constructor
  · intro h x hx
    by_cases hpx : p x = true
    · exact hpx
    · have hx2 : x ∈ l.dropWhile p := by
        have hsp : l = l.takeWhile p ++ l.dropWhile p := (List.takeWhile_append_dropWhile p l).symm
        rw [hsp] at hx
        rcases List.mem_append.1 hx with h1 | h2
        · exact absurd (List.mem_takeWhile_imp h1) hpx
        · exact h2
      exact h x (List.mem_reverse.2 hx2)
  · intro h x hx
    exact h x ((List.dropWhile_sublist p).subset (List.mem_reverse.1 hx))

theorem pyStrip_ne_empty_of_startsWith_http (link : String)
    (hw : strStartsWith link "http://" = true ∨ strStartsWith link "https://" = true) :
    pyStrip link ≠ "" := by
  have hh : ∃ t, link.data = 'h' :: t := by
    rcases hw with h | h
    · rcases List.isPrefixOf_iff_prefix.1 h with ⟨t, ht⟩
      exact ⟨_, ht.symm⟩
    · rcases List.isPrefixOf_iff_prefix.1 h with ⟨t, ht⟩
      exact ⟨_, ht.symm⟩
  rcases hh with ⟨t, ht⟩
  intro hcon
  have : stripWhile isPySpace link.data = [] := by
    have := congrArg String.data hcon
    simpa [pyStrip] using this
  have hall := (stripWhile_eq_nil_iff _ _).1 this
  have := hall 'h' (by rw [ht]; exact List.mem_cons_self _ _)
  simp [isPySpace] at this

/-! ## Rule fall-through lemmas -/

theorem ruleEmpty_none {link : String} (h : pyStrip link ≠ "") : ruleEmpty link = none := by
  unfold ruleEmpty
  rw [if_neg]
  rintro (rfl | h2)
  · exact h rfl
  · exact h h2

theorem ruleExternal_none {link : String}
    (h1 : strStartsWith link "http://" = false)
    (h2 : strStartsWith link "https://" = false) : ruleExternal link = none := by
  simp [ruleExternal, h1, h2]

theorem ruleExternal_some {link : String}
    (hw : strStartsWith link "http://" = true ∨ strStartsWith link "https://" = true)
    (hc : strStartsWith link "https://confluence" = false) :
    ruleExternal link = some link := by
  rcases hw with h | h <;> simp [ruleExternal, h, hc]

theorem ruleFile_none {link : String} (h : strStartsWith link "file://" = false) :
    ruleFile link = none := by
  simp [ruleFile, h]

theorem ruleHomepage_none {st : Store} {current_dir link : String} (h : link ≠ "index.html") :
    ruleHomepage st current_dir link = none := by
  simp [ruleHomepage, h]

theorem ruleAttachment_none {cfg : Cfg} {st : Store} {ap : APState} {current_dir link : String}
    (h1 : strContains link (cfg.ATTACHMENTS_PATH ++ "/") = false)
    (h2 : strContains link ("download/" ++ cfg.ATTACHMENTS_PATH ++ "/") = false) :
    ruleAttachment cfg st ap current_dir link = none := by
  simp [ruleAttachment, h1, h2]

theorem ruleViewPage_none {cfg : Cfg} {st : Store} {link : String}
    (h : strContains link "/pages/viewpage.action" = false) :
    ruleViewPage cfg st link = none := by
  simp [ruleViewPage, h]

theorem ruleEditBlog_none {cfg : Cfg} {st : Store} {link : String}
    (h : strContains link "/pages/editblogpost.action" = false) :
    ruleEditBlog cfg st link = none := by
  simp [ruleEditBlog, h]

theorem ruleLabelByName_none {link : String} (h : strContains link "/label/" = false) :
    ruleLabelByName link = none := by
  simp [ruleLabelByName, h]

end Conf

namespace Conf

/-- C4: `should_copy_file(src, dst)` returns True when `dst` does not
exist; otherwise True when the sizes of `src` and `dst` differ; otherwise
(equal sizes) True exactly when `src`'s modification time is strictly
greater than `dst`'s.  (The source is assumed to exist — the code only ever
calls the policy on files found by `os.listdir` — and the destination path
is a file path, not a directory.) -/
theorem C4_should_copy_file_policy (fs : FS) (src dst : String) (s : FileStat)
    (hsrc : fs.stat src = some s) (hdir : fs.listDir dst = none) :
    (fs.stat dst = none → should_copy_file fs src dst = some true) ∧
    (∀ d : FileStat, fs.stat dst = some d → s.size ≠ d.size →
      should_copy_file fs src dst = some true) ∧
    (∀ d : FileStat, fs.stat dst = some d → s.size = d.size →
      (should_copy_file fs src dst = some true ↔ s.mtime > d.mtime)) := by
  refine ⟨?_, ?_, ?_⟩
  · intro hd
    simp [should_copy_file, fsExists, hd, hdir]
  · intro d hd hsize
    simp [should_copy_file, fsExists, hd, hdir, hsrc, hsize]
  · intro d hd hsize
    simp [should_copy_file, fsExists, hd, hdir, hsrc, hsize]

/-- Witness for C4 at a concrete file system: the destination exists with
equal size, so the result is `copy iff strictly newer` (here `10 > 3`). -/
theorem C4_should_copy_file_policy_witness :
    should_copy_file
      { stat := fun p => if p = "in/a.txt" then some ⟨5, 10⟩
                         else if p = "out/a.txt" then some ⟨5, 3⟩ else none,
        listDir := fun _ => none }
      "in/a.txt" "out/a.txt" = some true :=
  ((C4_should_copy_file_policy
      { stat := fun p => if p = "in/a.txt" then some ⟨5, 10⟩
                         else if p = "out/a.txt" then some ⟨5, 3⟩ else none,
        listDir := fun _ => none }
      "in/a.txt" "out/a.txt" ⟨5, 10⟩ (by decide) rfl).2.2 ⟨5, 3⟩ (by decide) rfl).2 (by decide)

/-- C7 counterexample: the non-empty input `"."` sanitizes to the empty
string (the trim step removes the dot), yet `_sanitize_filename` returns
the CDATA-cleaned original `"."`, not the literal `"unnamed"`. -/
theorem C7_sanitize_counterexample :
    "." ≠ ("" : String) ∧ sanitize_core defaultCfg "." = [] ∧
    sanitize_filename defaultCfg "." = "." ∧
    sanitize_filename defaultCfg "." ≠ "unnamed" := by
  refine ⟨by decide, by decide, by decide, by decide⟩

/-- C7 as amended: the literal `"unnamed"` is returned only when the input
itself is empty; a non-empty input whose sanitization pipeline yields the
empty string is returned as its CDATA-cleaned original text instead. -/
theorem C7_sanitize_empty_fallback (cfg : Cfg) (s : String) (hne : s ≠ "")
    (hempty : sanitize_core cfg s = []) :
    sanitize_filename cfg s = clean_cdata s ∧ sanitize_filename cfg "" = "unnamed" := by
  constructor
  · unfold sanitize_filename
    rw [if_neg hne]
    simp [hempty]
  · rfl

/-- Witness for C7's amended theorem at the input `"."`. -/
theorem C7_sanitize_empty_fallback_witness :
    sanitize_filename defaultCfg "." = clean_cdata "." ∧
    sanitize_filename defaultCfg "" = "unnamed" :=
  C7_sanitize_empty_fallback defaultCfg "." (by decide) (by decide)

/-- C6 counterexample: with the Confluence base URL configured as
`https://wiki.example.com`, the external link
`https://confluence.net/page.html` does not point at the configured base
URL, yet the resolver rewrites it to `https://confluence.net/page.md`
instead of returning it unchanged (the code compares against the hardcoded
literal `https://confluence`, not the configured base URL). -/
theorem C6_external_link_counterexample :
    strStartsWith "https://confluence.net/page.html" "https://" = true ∧
    strStartsWith "https://confluence.net/page.html"
      (Cfg.CONFLUENCE_BASE_URL { CONFLUENCE_BASE_URL := "https://wiki.example.com" }) = false ∧
    process_link { CONFLUENCE_BASE_URL := "https://wiki.example.com" } Store.init {}
      "https://confluence.net/page.html" "" = "https://confluence.net/page.md" ∧
    process_link { CONFLUENCE_BASE_URL := "https://wiki.example.com" } Store.init {}
      "https://confluence.net/page.html" "" ≠ "https://confluence.net/page.html" := by
  refine ⟨by decide, by decide, by decide, by decide⟩

/-- C6 as amended: the resolver returns unchanged every `http://` or
`https://` link that does not start with the hardcoded literal prefix
`https://confluence` — the comparison is against that literal, not against
the configured Confluence base URL. -/
theorem C6_external_link_unchanged (cfg : Cfg) (st : Store) (ap : APState)
    (link current_dir : String)
    (hw : strStartsWith link "http://" = true ∨ strStartsWith link "https://" = true)
    (hc : strStartsWith link "https://confluence" = false) :
    process_link cfg st ap link current_dir = link := by
  unfold process_link ruleChain
  rw [ruleEmpty_none (pyStrip_ne_empty_of_startsWith_http link hw), orD_none,
    ruleExternal_some hw hc, orD_some]
  rfl

/-- Witness for C6's amended theorem at a concrete external link. -/
theorem C6_external_link_unchanged_witness :
    process_link defaultCfg Store.init {} "https://other.net/page.html" "" =
      "https://other.net/page.html" :=
  C6_external_link_unchanged defaultCfg Store.init {} "https://other.net/page.html" ""
    (Or.inr (by decide)) (by decide)

end Conf

namespace Conf

/-! ## Ingestion idempotence (C3) -/

theorem foldl_processed {β : Type} (f : Store → β → Store) (l : List β) (st : Store)
    (h : ∀ st b, (f st b).processed_xml_files = st.processed_xml_files) :
    (l.foldl f st).processed_xml_files = st.processed_xml_files := by
  induction l generalizing st with
  | nil => rfl
  | cons b t ih => rw [List.foldl_cons, ih, h]

theorem processed_build_helper_indexes (st : Store) :
    (build_helper_indexes st).processed_xml_files = st.processed_xml_files := by
  unfold build_helper_indexes
  rw [foldl_processed, foldl_processed]
  · intro st b; dsimp only; split <;> rfl
  · intro st b; dsimp only; split <;> rfl

theorem processed_underscore_homepage_titles (st : Store) :
    (underscore_homepage_titles st).processed_xml_files = st.processed_xml_files := by
  unfold underscore_homepage_titles
  rw [foldl_processed]
  intro st b
  dsimp only
  split
  · rfl
  · split
    · rfl
    · split
      · rfl
      · split <;> split <;> rfl

theorem add_xml_file_true_mem (cfg : Cfg) (xfs : String → Option XmlFile) (st : Store)
    (p : String) (h : (add_xml_file cfg xfs st p).1 = true) :
    ((add_xml_file cfg xfs st p).2).processed_xml_files.contains p = true := by
  unfold add_xml_file at h ⊢
  by_cases hc : st.processed_xml_files.contains p = true
  · rw [if_pos hc]
    exact hc
  · rw [if_neg hc] at h ⊢
    revert h
    cases hxf : xfs p with
    | none => intro h; simp at h
    | some file =>
      intro h
      dsimp only at h ⊢
      revert h
      cases happly : apply_body_page_relations (extract_body_page file)
          (extract_comments file
            (extract_pages cfg file (extract_spaces file (extract_users file st)))) 0 0 with
      | none => intro h; simp at h
      | some r =>
        intro h
        obtain ⟨st5, sc, mc⟩ := r
        dsimp only at h ⊢
        split
        · rw [processed_underscore_homepage_titles, processed_build_helper_indexes]
          simp
        · rw [processed_build_helper_indexes]
          simp

/-- C3: ingestion is idempotent — when a call to `add_xml_file` succeeds,
calling it again with the same path returns `True` and leaves every Entity
Store structure (spaces, pages, users, attachments, comments, alias table,
helper indexes, processed-file set) exactly as it was after the first
call. -/
theorem C3_add_xml_file_idempotent (cfg : Cfg) (xfs : String → Option XmlFile) (st : Store)
    (xml_path : String) (h : (add_xml_file cfg xfs st xml_path).1 = true) :
    add_xml_file cfg xfs (add_xml_file cfg xfs st xml_path).2 xml_path =
      (true, (add_xml_file cfg xfs st xml_path).2) := by
  have hmem := add_xml_file_true_mem cfg xfs st xml_path h
  set st2 := (add_xml_file cfg xfs st xml_path).2 with hst2
  unfold add_xml_file
  rw [if_pos hmem]

/-- Witness for C3: ingesting a one-page document at path `f1` into a
fresh store succeeds, and re-ingesting it is a no-op success. -/
theorem C3_add_xml_file_idempotent_witness :
    add_xml_file defaultCfg
      (fun p => if p = "f1" then
        some { spaces := [{ id := some "s1", key := some "ENG" }],
               pages := [{ recClass := "Page", id := some "10", title := some "T",
                           hibernateVersion := some 1 }] }
        else none)
      (add_xml_file defaultCfg
        (fun p => if p = "f1" then
          some { spaces := [{ id := some "s1", key := some "ENG" }],
                 pages := [{ recClass := "Page", id := some "10", title := some "T",
                             hibernateVersion := some 1 }] }
          else none)
        Store.init "f1").2 "f1" =
    (true,
     (add_xml_file defaultCfg
        (fun p => if p = "f1" then
          some { spaces := [{ id := some "s1", key := some "ENG" }],
                 pages := [{ recClass := "Page", id := some "10", title := some "T",
                             hibernateVersion := some 1 }] }
          else none)
        Store.init "f1").2) :=
  C3_add_xml_file_idempotent defaultCfg
    (fun p => if p = "f1" then
      some { spaces := [{ id := some "s1", key := some "ENG" }],
             pages := [{ recClass := "Page", id := some "10", title := some "T",
                         hibernateVersion := some 1 }] }
      else none)
    Store.init "f1" (by decide)

end Conf

namespace Conf

/-! ## Attachment link resolution (C2) -/

theorem ruleAttachment_byId {cfg : Cfg} {st : Store} {ap : APState} {current_dir link : String}
    {attachment_id : String} {att : Attachment}
    (hcond : strContains link (cfg.ATTACHMENTS_PATH ++ "/") = true)
    (hex : extractAttachmentId link = some attachment_id)
    (hatt : get_attachment_by_id st attachment_id = some att) :
    ruleAttachment cfg st ap current_dir link =
      some (pyStr (get_space_key_by_page_id st att.containerContent_id) ++ "/" ++
        cfg.ATTACHMENTS_PATH ++ "/" ++ att.containerContent_id ++ "/" ++ att.title) := by
  unfold ruleAttachment
  rw [hcond]
  simp [hex, hatt]

/-- C2: for an attachment link whose attachment ID extracts and resolves to
a known attachment record, the output path is built from the record's
authoritative parent `containerContent_id` — also when that parent differs
from the page ID embedded in the link's path. -/
theorem C2_attachment_parent_authority (cfg : Cfg) (st : Store) (ap : APState)
    (link current_dir attachment_id embedded_page_id space_key : String) (att : Attachment)
    (hstrip : pyStrip link ≠ "")
    (hw1 : strStartsWith link "http://" = false)
    (hw2 : strStartsWith link "https://" = false)
    (hf : strStartsWith link "file://" = false)
    (hidx : link ≠ "index.html")
    (hcond : strContains link (cfg.ATTACHMENTS_PATH ++ "/") = true)
    (hex : extractAttachmentId link = some attachment_id)
    (hatt : get_attachment_by_id st attachment_id = some att)
    (_hembed : extractDigitsBetween link (cfg.ATTACHMENTS_PATH ++ "/") = some embedded_page_id)
    (_hdiff : embedded_page_id ≠ att.containerContent_id)
    (hkey : get_space_key_by_page_id st att.containerContent_id = some space_key) :
    process_link cfg st ap link current_dir =
      space_key ++ "/" ++ cfg.ATTACHMENTS_PATH ++ "/" ++ att.containerContent_id ++ "/" ++
        att.title := by
  unfold process_link ruleChain
  rw [ruleEmpty_none hstrip, orD_none, ruleExternal_none hw1 hw2, orD_none,
    ruleFile_none hf, orD_none, ruleHomepage_none hidx, orD_none,
    ruleAttachment_byId hcond hex hatt, orD_some, hkey]
  rfl

/-- Witness for C2, the spec's own example: raw link
`attachments/123/456.pdf`, attachment `456` titled `Manual.pdf` with
`containerContent_id = "789"`, page `789` in space key `ENG` — resolves to
`ENG/attachments/789/Manual.pdf` (from `789`, not the embedded `123`). -/
theorem C2_attachment_parent_authority_witness :
    process_link defaultCfg
      { spaces := [("s1", { id := "s1", key := "ENG" })],
        page := [("789", { id := "789", type := "Page", title := "Parent", spaceId := "s1" })],
        attachments := [("456", { id := "456", title := "Manual.pdf",
                                  containerContent_id := "789" })] }
      {} "attachments/123/456.pdf" "ENG" = "ENG/attachments/789/Manual.pdf" :=
  C2_attachment_parent_authority defaultCfg
    { spaces := [("s1", { id := "s1", key := "ENG" })],
      page := [("789", { id := "789", type := "Page", title := "Parent", spaceId := "s1" })],
      attachments := [("456", { id := "456", title := "Manual.pdf",
                                containerContent_id := "789" })] }
    {} "attachments/123/456.pdf" "ENG" "456" "123" "ENG"
    { id := "456", title := "Manual.pdf", containerContent_id := "789" }
    (by decide) (by decide) (by decide) (by decide) (by decide) (by decide) (by decide)
    (by decide) (by decide) (by decide) (by decide)

end Conf

namespace Conf

/-! ## Page-ID links (C8) and label links (C9) -/

/-- C8 counterexample: page `555` has type `Page`, yet the
`editblogpost.action` branch routes it under the blogpost subfolder —
`WER/blogposts/Some Post.md` instead of the claimed `WER/Some Post.md` (the
branch never consults the page's `type`). -/
theorem C8_editblogpost_counterexample :
    (dget
      ({ spaces := [("s1", { id := "s1", key := "WER" })],
         page := [("555", { id := "555", type := "Page", title := "Some Post",
                            spaceId := "s1" })] } : Store).page "555").map StoredPage.type =
      some "Page" ∧
    process_link defaultCfg
      { spaces := [("s1", { id := "s1", key := "WER" })],
        page := [("555", { id := "555", type := "Page", title := "Some Post",
                           spaceId := "s1" })] }
      {} "/pages/editblogpost.action?pageId=555" "" = "WER/blogposts/Some Post.md" ∧
    process_link defaultCfg
      { spaces := [("s1", { id := "s1", key := "WER" })],
        page := [("555", { id := "555", type := "Page", title := "Some Post",
                           spaceId := "s1" })] }
      {} "/pages/editblogpost.action?pageId=555" "" ≠ "WER/Some Post.md" := by
  refine ⟨by decide, by decide, by decide⟩

/-- C8 as amended: `viewpage.action?pageId=` links branch on the resolved
page's type (`BlogPost` → `<spaceKey>/<blogpostPath>/<title>.md`, others →
`<spaceKey>/<title>.md`), while `editblogpost.action?pageId=` links always
resolve to `<spaceKey>/<blogpostPath>/<title>.md` regardless of the page's
type. -/
theorem C8_pageid_resolution (cfg : Cfg) (st : Store) (ap : APState)
    (current_dir page_id : String) (p : StoredPage) (sp : Space)
    (hp : get_page_by_id st page_id = some p)
    (hsid : p.spaceId ≠ "")
    (hsp : get_space_by_id st p.spaceId = some sp)
    (hkey : sp.key ≠ "") :
    (∀ link : String, pyStrip link ≠ "" →
      strStartsWith link "http://" = false → strStartsWith link "https://" = false →
      strStartsWith link "file://" = false → link ≠ "index.html" →
      strContains link (cfg.ATTACHMENTS_PATH ++ "/") = false →
      strContains link ("download/" ++ cfg.ATTACHMENTS_PATH ++ "/") = false →
      strContains link "/pages/viewpage.action" = true →
      strContains link "pageId=" = true →
      extractAfterMarker link "pageId=" = some page_id →
      process_link cfg st ap link current_dir =
        (if p.type = "BlogPost" then
          sp.key ++ "/" ++ cfg.BLOGPOST_PATH ++ "/" ++ p.title ++ ".md"
         else sp.key ++ "/" ++ p.title ++ ".md")) ∧
    (∀ link : String, pyStrip link ≠ "" →
      strStartsWith link "http://" = false → strStartsWith link "https://" = false →
      strStartsWith link "file://" = false → link ≠ "index.html" →
      strContains link (cfg.ATTACHMENTS_PATH ++ "/") = false →
      strContains link ("download/" ++ cfg.ATTACHMENTS_PATH ++ "/") = false →
      strContains link "/pages/viewpage.action" = false →
      strContains link "/pages/editblogpost.action" = true →
      strContains link "pageId=" = true →
      extractAfterMarker link "pageId=" = some page_id →
      process_link cfg st ap link current_dir =
        sp.key ++ "/" ++ cfg.BLOGPOST_PATH ++ "/" ++ p.title ++ ".md") := by
  constructor
  · intro link hstrip hw1 hw2 hf hidx ha1 ha2 hvp hpid hex
    unfold process_link ruleChain
    rw [ruleEmpty_none hstrip, orD_none, ruleExternal_none hw1 hw2, orD_none,
      ruleFile_none hf, orD_none, ruleHomepage_none hidx, orD_none,
      ruleAttachment_none ha1 ha2, orD_none]
    have hrule : ruleViewPage cfg st link =
        some (if p.type = "BlogPost" then
            sp.key ++ "/" ++ cfg.BLOGPOST_PATH ++ "/" ++ p.title ++ ".md"
          else sp.key ++ "/" ++ p.title ++ ".md") := by
      unfold ruleViewPage
      rw [hvp, hpid]
      by_cases ht : p.type = "BlogPost" <;> simp [hex, hp, hsp, hkey, ht]
    rw [hrule, orD_some]
    rfl
  · intro link hstrip hw1 hw2 hf hidx ha1 ha2 hvp heb hpid hex
    unfold process_link ruleChain
    rw [ruleEmpty_none hstrip, orD_none, ruleExternal_none hw1 hw2, orD_none,
      ruleFile_none hf, orD_none, ruleHomepage_none hidx, orD_none,
      ruleAttachment_none ha1 ha2, orD_none, ruleViewPage_none hvp, orD_none]
    have hrule : ruleEditBlog cfg st link =
        some (sp.key ++ "/" ++ cfg.BLOGPOST_PATH ++ "/" ++ p.title ++ ".md") := by
      unfold ruleEditBlog
      rw [heb, hpid]
      simp [hex, hp, hsid, hsp, hkey]
    rw [hrule, orD_some]
    rfl

/-- Witness for C8 at the spec's example: page `48267601`
(`Safety Rules`, type `Page`, space key `WER`) reached through
`/pages/viewpage.action?pageId=48267601` resolves to
`WER/Safety Rules.md`. -/
theorem C8_pageid_resolution_witness :
    process_link defaultCfg
      { spaces := [("s1", { id := "s1", key := "WER" })],
        page := [("48267601", { id := "48267601", type := "Page", title := "Safety Rules",
                                spaceId := "s1" })] }
      {} "/pages/viewpage.action?pageId=48267601" "" = "WER/Safety Rules.md" := by
  have h := (C8_pageid_resolution defaultCfg
    { spaces := [("s1", { id := "s1", key := "WER" })],
      page := [("48267601", { id := "48267601", type := "Page", title := "Safety Rules",
                              spaceId := "s1" })] }
    {} "" "48267601"
    { id := "48267601", type := "Page", title := "Safety Rules", spaceId := "s1" }
    { id := "s1", key := "WER" }
    (by decide) (by decide) (by decide) (by decide)).1
    "/pages/viewpage.action?pageId=48267601"
    (by decide) (by decide) (by decide) (by decide) (by decide) (by decide) (by decide)
    (by decide) (by decide) (by decide)
  simpa using h

/-- C9: a `/labels/` link carrying `ids=<labelId>` reaching the label rule
resolves to `#<labelName>` when the label ID is in the label index and to
the fallback `#label_<labelId>` otherwise, and the result is never
empty. -/
theorem C9_label_links (cfg : Cfg) (st : Store) (ap : APState)
    (link current_dir label_id : String)
    (hstrip : pyStrip link ≠ "")
    (hw1 : strStartsWith link "http://" = false)
    (hw2 : strStartsWith link "https://" = false)
    (hf : strStartsWith link "file://" = false)
    (hidx : link ≠ "index.html")
    (ha1 : strContains link (cfg.ATTACHMENTS_PATH ++ "/") = false)
    (ha2 : strContains link ("download/" ++ cfg.ATTACHMENTS_PATH ++ "/") = false)
    (hvp : strContains link "/pages/viewpage.action" = false)
    (heb : strContains link "/pages/editblogpost.action" = false)
    (hlbl : strContains link "/label/" = false)
    (hcond : strContains link "/labels/" = true)
    (hids : extractAfterMarker link "ids=" = some label_id) :
    process_link cfg st ap link current_dir =
      (match dget st.label_by_id label_id with
       | some lb => "#" ++ lb.name
       | none => "#label_" ++ label_id) ∧
    process_link cfg st ap link current_dir ≠ "" := by
  have hrule : ruleLabelById st link =
      some (match dget st.label_by_id label_id with
            | some lb => "#" ++ lb.name
            | none => "#label_" ++ label_id) := by
    unfold ruleLabelById
    rw [hcond, hids]
    show (match dget st.label_by_id label_id with
          | some lb => some ("#" ++ lb.name)
          | none => some ("#label_" ++ label_id)) =
        some (match dget st.label_by_id label_id with
              | some lb => "#" ++ lb.name
              | none => "#label_" ++ label_id)
    cases hd : dget st.label_by_id label_id <;> rfl
  have hres : process_link cfg st ap link current_dir =
      (match dget st.label_by_id label_id with
       | some lb => "#" ++ lb.name
       | none => "#label_" ++ label_id) := by
    unfold process_link ruleChain
    rw [ruleEmpty_none hstrip, orD_none, ruleExternal_none hw1 hw2, orD_none,
      ruleFile_none hf, orD_none, ruleHomepage_none hidx, orD_none,
      ruleAttachment_none ha1 ha2, orD_none, ruleViewPage_none hvp, orD_none,
      ruleEditBlog_none heb, orD_none, ruleLabelByName_none hlbl, orD_none,
      hrule, orD_some]
    rfl
  refine ⟨hres, ?_⟩
  rw [hres]
  cases hd : dget st.label_by_id label_id with
  | some lb =>
    intro hcon
    have := congrArg String.data hcon
    simp at this
  | none =>
    intro hcon
    have := congrArg String.data hcon
    simp at this

/-- Witness for C9 at the spec's example: label `42` named `safety` gives
`#safety`; the unknown label `43` gives `#label_43`. -/
theorem C9_label_links_witness :
    process_link defaultCfg { label_by_id := [("42", { id := "42", name := "safety" })] } {}
      "/labels/viewlabel.action?ids=42" "" = "#safety" ∧
    process_link defaultCfg { label_by_id := [("42", { id := "42", name := "safety" })] } {}
      "/labels/viewlabel.action?ids=43" "" = "#label_43" := by
  constructor
  · have h := (C9_label_links defaultCfg
      { label_by_id := [("42", { id := "42", name := "safety" })] } {}
      "/labels/viewlabel.action?ids=42" "" "42"
      (by decide) (by decide) (by decide) (by decide) (by decide) (by decide) (by decide)
      (by decide) (by decide) (by decide) (by decide) (by decide)).1
    simpa using h
  · have h := (C9_label_links defaultCfg
      { label_by_id := [("42", { id := "42", name := "safety" })] } {}
      "/labels/viewlabel.action?ids=43" "" "43"
      (by decide) (by decide) (by decide) (by decide) (by decide) (by decide) (by decide)
      (by decide) (by decide) (by decide) (by decide) (by decide)).1
    simpa using h

end Conf

namespace Conf

/-- C5: at the failing input (a known attachment whose destination is fresh,
so the copy is skipped), the direct per-space scheme leaves the
`originalPath → outputPath` entry out of the file-mapping table, while the
versioned XML-bundle scheme records it — the direct scheme violates the
claimed always-record behaviour. -/
theorem C5_skip_branch_mapping :
    should_copy_file c5Fs "input/ENG/attachments/100/200.txt"
      "output/ENG/attachments/100/file.txt" = some false ∧
    get_attachment_by_id c5Store "200" ≠ none ∧
    (process_space_attachments defaultCfg c5Store "ENG" {} c5Fs).1.file_mapping = [] ∧
    (process_xml_attachments defaultCfg c5Store
      "input-xml/Confluence-space-export-ENG-1/entities.xml" c5File {} c5Fs).1.file_mapping =
      [("input-xml/Confluence-space-export-ENG-1/attachments/100/200/2",
        "output/ENG/attachments/100/file.txt")] := by
  refine ⟨by decide, by decide, by decide, by decide⟩

end Conf

namespace Conf

/-- C10 counterexample: after ingesting the two exports in sequence, the
alias table maps `1 ↦ 2` and `2 ↦ 3`, so the alias target `2` is not a
fixed point — resolving `1` through one hop lands on the stale ID `2`. -/
theorem C10_alias_counterexample :
    dget ((add_xml_file defaultCfg c10Xfs
      (add_xml_file defaultCfg c10Xfs Store.init "f1").2 "f2").2).page_id_mapping "1" =
      some "2" ∧
    dget ((add_xml_file defaultCfg c10Xfs
      (add_xml_file defaultCfg c10Xfs Store.init "f1").2 "f2").2).page_id_mapping "2" =
      some "3" ∧
    ("3" : String) ≠ "2" := by
  refine ⟨by decide, by decide, by decide⟩

end Conf

namespace Conf

/-! ## Dict lemmas for the consolidation proofs -/

theorem dget_mem {α : Type} {m : List (String × α)} {k : String} {v : α}
    (h : dget m k = some v) : (k, v) ∈ m := by
  induction m with
  | nil => simp [dget] at h
  | cons p rest ih =>
    obtain ⟨k', v'⟩ := p
    rw [dget] at h
    by_cases hp : k' = k
    · rw [if_pos hp] at h
      injection h with h
      subst hp
      subst h
      exact List.mem_cons_self _ _
    · rw [if_neg hp] at h
      exact List.mem_cons_of_mem _ (ih h)

theorem mem_dinsert {α : Type} {m : List (String × α)} {k : String} {v : α} {p : String × α}
    (h : p ∈ dinsert m k v) : p = (k, v) ∨ p ∈ m := by
  induction m with
  | nil =>
    simp [dinsert] at h
    exact Or.inl h
  | cons q rest ih =>
    obtain ⟨k', v'⟩ := q
    rw [dinsert] at h
    by_cases hq : k' = k
    · rw [if_pos hq] at h
      rcases List.mem_cons.1 h with h1 | h2
      · exact Or.inl h1
      · exact Or.inr (List.mem_cons_of_mem _ h2)
    · rw [if_neg hq] at h
      rcases List.mem_cons.1 h with h1 | h2
      · exact Or.inr (by rw [h1]; exact List.mem_cons_self _ _)
      · rcases ih h2 with h3 | h4
        · exact Or.inl h3
        · exact Or.inr (List.mem_cons_of_mem _ h4)

theorem keys_dinsert {α : Type} {m : List (String × α)} {k : String} {v : α} {x : String}
    (h : x ∈ (dinsert m k v).map Prod.fst) : x = k ∨ x ∈ m.map Prod.fst := by
  rcases List.mem_map.1 h with ⟨p, hp, hpx⟩
  rcases mem_dinsert hp with h1 | h2
  · left
    rw [h1] at hpx
    exact hpx.symm
  · right
    exact List.mem_map.2 ⟨p, h2, hpx⟩

theorem keys_nodup_dinsert {α : Type} {m : List (String × α)} {k : String} {v : α}
    (h : (m.map Prod.fst).Nodup) : ((dinsert m k v).map Prod.fst).Nodup := by
  induction m with
  | nil => simp [dinsert]
  | cons q rest ih =>
    obtain ⟨k', v'⟩ := q
    rw [dinsert]
    by_cases hq : k' = k
    · rw [if_pos hq]
      subst hq
      simpa using h
    · rw [if_neg hq]
      simp only [List.map_cons, List.nodup_cons] at h ⊢
      refine ⟨?_, ih h.2⟩
      intro hmem
      rcases keys_dinsert hmem with h1 | h2
      · exact hq h1
      · exact h.1 h2

end Conf

namespace Conf

/-! ## First-pass lemmas (pages) -/

theorem selfmap_dinsert {m : List (String × String)} {k : String}
    (hm : ∀ x y, dget m x = some y → y = x) :
    ∀ x y, dget (dinsert m k k) x = some y → y = x := by
  intro x y hxy
  rw [dget_dinsert] at hxy
  by_cases hk : k = x
  · rw [if_pos hk] at hxy
    injection hxy with hxy
    rw [← hxy, hk]
  · rw [if_neg hk] at hxy
    exact hm x y hxy

theorem pagesPass1_selfmap (recs : List PageRec) (m : List (String × String))
    (v : List (String × PVEntry)) (hm : ∀ x y, dget m x = some y → y = x) :
    ∀ x y, dget (pagesPass1 recs m v).1 x = some y → y = x := by
  induction recs generalizing m v with
  | nil => simpa [pagesPass1] using hm
  | cons r rest ih =>
    rw [pagesPass1]
    by_cases hc : r.recClass = "Page"
    · rw [if_pos hc]
      by_cases hd : r.contentStatus = some "draft"
      · rw [if_pos hd]
        exact ih m v hm
      · rw [if_neg hd]
        cases ht : r.title with
        | none => exact ih m v hm
        | some title =>
          dsimp only
          exact ih _ _ (selfmap_dinsert hm)
    · rw [if_neg hc]
      exact ih m v hm

theorem blogsPass1_selfmap (recs : List PageRec) (m : List (String × String))
    (v : List (String × PVEntry)) (hm : ∀ x y, dget m x = some y → y = x) :
    ∀ x y, dget (blogsPass1 recs m v).1 x = some y → y = x := by
  induction recs generalizing m v with
  | nil => simpa [blogsPass1] using hm
  | cons r rest ih =>
    rw [blogsPass1]
    split
    · split
      · exact ih m v hm
      · split
        · exact ih m v hm
        · split
          · exact ih m v hm
          · split
            · exact ih m v hm
            · exact ih _ _ (selfmap_dinsert hm)
    · exact ih m v hm

theorem pagesPass1_versions_mem (recs : List PageRec) (m : List (String × String))
    (v : List (String × PVEntry)) (Q : String → PVEntry → Prop)
    (hbase : ∀ p ∈ v, Q p.1 p.2)
    (hstep : ∀ r ∈ recs, r.recClass = "Page" → r.contentStatus ≠ some "draft" →
      ∀ T, r.title = some T → Q T ⟨hvOf r, r⟩) :
    ∀ p ∈ (pagesPass1 recs m v).2, Q p.1 p.2 := by
  induction recs generalizing m v with
  | nil => simpa [pagesPass1] using hbase
  | cons r rest ih =>
    rw [pagesPass1]
    by_cases hc : r.recClass = "Page"
    · rw [if_pos hc]
      by_cases hd : r.contentStatus = some "draft"
      · rw [if_pos hd]
        exact ih m v hbase (fun r' hr' => hstep r' (List.mem_cons_of_mem _ hr'))
      · rw [if_neg hd]
        cases ht : r.title with
        | none =>
          exact ih m v hbase (fun r' hr' => hstep r' (List.mem_cons_of_mem _ hr'))
        | some title =>
          dsimp only
          apply ih
          · intro p hp
            have hnew : Q title ⟨hvOf r, r⟩ :=
              hstep r (List.mem_cons_self _ _) hc hd title ht
            split at hp
            · rcases mem_dinsert hp with h1 | h2
              · rw [h1]
                exact hnew
              · exact hbase p h2
            · split at hp
              · rcases mem_dinsert hp with h1 | h2
                · rw [h1]
                  exact hnew
                · exact hbase p h2
              · exact hbase p hp
          · exact fun r' hr' => hstep r' (List.mem_cons_of_mem _ hr')
    · rw [if_neg hc]
      exact ih m v hbase (fun r' hr' => hstep r' (List.mem_cons_of_mem _ hr'))

theorem blogsPass1_versions_mem (recs : List PageRec) (m : List (String × String))
    (v : List (String × PVEntry)) (Q : String → PVEntry → Prop)
    (hbase : ∀ p ∈ v, Q p.1 p.2)
    (hstep : ∀ r ∈ recs, r.recClass = "BlogPost" → r.id.isSome →
      r.contentStatus ≠ some "draft" → r.contentStatus ≠ some "deleted" →
      ∀ T, r.title = some T → Q T ⟨hvOf r, r⟩) :
    ∀ p ∈ (blogsPass1 recs m v).2, Q p.1 p.2 := by
  induction recs generalizing m v with
  | nil => simpa [blogsPass1] using hbase
  | cons r rest ih =>
    have hrest : ∀ r' ∈ rest, r'.recClass = "BlogPost" → r'.id.isSome →
        r'.contentStatus ≠ some "draft" → r'.contentStatus ≠ some "deleted" →
        ∀ T, r'.title = some T → Q T ⟨hvOf r', r'⟩ :=
      fun r' hr' => hstep r' (List.mem_cons_of_mem _ hr')
    rw [blogsPass1]
    split
    · rename_i hc
      split
      · exact ih m v hbase hrest
      · rename_i blog_id hid
        split
        · exact ih m v hbase hrest
        · rename_i title ht
          split
          · exact ih m v hbase hrest
          · rename_i hd
            split
            · exact ih m v hbase hrest
            · rename_i hdel
              apply ih
              · intro p hp
                have hnew : Q title ⟨hvOf r, r⟩ :=
                  hstep r (List.mem_cons_self _ _) hc (by rw [hid]; rfl) hd hdel title ht
                split at hp
                · rcases mem_dinsert hp with h1 | h2
                  · rw [h1]
                    exact hnew
                  · exact hbase p h2
                · split at hp
                  · rcases mem_dinsert hp with h1 | h2
                    · rw [h1]
                      exact hnew
                    · exact hbase p h2
                  · exact hbase p hp
              · exact hrest
    · exact ih m v hbase hrest

end Conf

namespace Conf

/-! ## First-pass max-tracking lemmas -/

theorem versions_update_mono (v : List (String × PVEntry)) (title : String) (r : PageRec)
    (T : String) (e0 : PVEntry) (h : dget v T = some e0) :
    ∃ e', dget (match dget v title with
                | none => dinsert v title ⟨hvOf r, r⟩
                | some e => if hvOf r > e.hv then dinsert v title ⟨hvOf r, r⟩ else v) T =
      some e' ∧ e0.hv ≤ e'.hv := by
  split
  · rename_i hdg
    by_cases hT : title = T
    · subst hT
      rw [h] at hdg
      cases hdg
    · refine ⟨e0, ?_, le_refl _⟩
      rw [dget_dinsert_ne v title T _ (fun hx => hT hx.symm)]
      exact h
  · rename_i e hdg
    split
    · rename_i hgt
      by_cases hT : title = T
      · subst hT
        rw [h] at hdg
        injection hdg with hdg
        subst hdg
        exact ⟨⟨hvOf r, r⟩, dget_dinsert_self v title ⟨hvOf r, r⟩, le_of_lt hgt⟩
      · refine ⟨e0, ?_, le_refl _⟩
        rw [dget_dinsert_ne v title T _ (fun hx => hT hx.symm)]
        exact h
    · exact ⟨e0, h, le_refl _⟩

theorem versions_update_self (v : List (String × PVEntry)) (title : String) (r : PageRec) :
    ∃ e', dget (match dget v title with
                | none => dinsert v title ⟨hvOf r, r⟩
                | some e => if hvOf r > e.hv then dinsert v title ⟨hvOf r, r⟩ else v) title =
      some e' ∧ hvOf r ≤ e'.hv := by
  split
  · exact ⟨⟨hvOf r, r⟩, dget_dinsert_self v title ⟨hvOf r, r⟩, le_refl _⟩
  · rename_i e hdg
    split
    · exact ⟨⟨hvOf r, r⟩, dget_dinsert_self v title ⟨hvOf r, r⟩, le_refl _⟩
    · rename_i hng
      exact ⟨e, hdg, le_of_not_lt hng⟩

theorem pagesPass1_versions_mono (recs : List PageRec) (m : List (String × String))
    (v : List (String × PVEntry)) (T : String) (e0 : PVEntry) (h : dget v T = some e0) :
    ∃ e1, dget (pagesPass1 recs m v).2 T = some e1 ∧ e0.hv ≤ e1.hv := by
  induction recs generalizing m v e0 with
  | nil => exact ⟨e0, by simpa [pagesPass1] using h, le_refl _⟩
  | cons r rest ih =>
    rw [pagesPass1]
    split
    · split
      · exact ih m v e0 h
      · split
        · exact ih m v e0 h
        · rename_i title ht
          dsimp only
          rcases versions_update_mono v title r T e0 h with ⟨e', he', hle⟩
          rcases ih _ _ e' he' with ⟨e1, he1, hle2⟩
          exact ⟨e1, he1, le_trans hle hle2⟩
    · exact ih m v e0 h

theorem blogsPass1_versions_mono (recs : List PageRec) (m : List (String × String))
    (v : List (String × PVEntry)) (T : String) (e0 : PVEntry) (h : dget v T = some e0) :
    ∃ e1, dget (blogsPass1 recs m v).2 T = some e1 ∧ e0.hv ≤ e1.hv := by
  induction recs generalizing m v e0 with
  | nil => exact ⟨e0, by simpa [blogsPass1] using h, le_refl _⟩
  | cons r rest ih =>
    rw [blogsPass1]
    split
    · split
      · exact ih m v e0 h
      · split
        · exact ih m v e0 h
        · rename_i title ht
          split
          · exact ih m v e0 h
          · split
            · exact ih m v e0 h
            · dsimp only
              rcases versions_update_mono v title r T e0 h with ⟨e', he', hle⟩
              rcases ih _ _ e' he' with ⟨e1, he1, hle2⟩
              exact ⟨e1, he1, le_trans hle hle2⟩
    · exact ih m v e0 h

theorem pagesPass1_versions_exists (recs : List PageRec) (m : List (String × String))
    (v : List (String × PVEntry)) (r : PageRec) (T : String)
    (hcls : r.recClass = "Page") (hnd : r.contentStatus ≠ some "draft")
    (ht : r.title = some T) (hr : r ∈ recs) :
    ∃ e1, dget (pagesPass1 recs m v).2 T = some e1 ∧ hvOf r ≤ e1.hv := by
  revert hr
  induction recs generalizing m v with
  | nil => intro hr; cases hr
  | cons r0 rest ih =>
    intro hr
    rw [pagesPass1]
    rcases List.mem_cons.1 hr with heq | hmem
    · subst heq
      rw [if_pos hcls, if_neg hnd, ht]
      dsimp only
      rcases versions_update_self v T r with ⟨e', he', hle⟩
      rcases pagesPass1_versions_mono rest _ _ T e' he' with ⟨e1, he1, hle2⟩
      exact ⟨e1, he1, le_trans hle hle2⟩
    · split
      · split
        · exact ih m v hmem
        · split
          · exact ih m v hmem
          · dsimp only
            exact ih _ _ hmem
      · exact ih m v hmem

theorem blogsPass1_versions_exists (recs : List PageRec) (m : List (String × String))
    (v : List (String × PVEntry)) (r : PageRec) (T : String)
    (hcls : r.recClass = "BlogPost") (hid : r.id.isSome = true)
    (hnd : r.contentStatus ≠ some "draft") (hndel : r.contentStatus ≠ some "deleted")
    (ht : r.title = some T) (hr : r ∈ recs) :
    ∃ e1, dget (blogsPass1 recs m v).2 T = some e1 ∧ hvOf r ≤ e1.hv := by
  revert hr
  induction recs generalizing m v with
  | nil => intro hr; cases hr
  | cons r0 rest ih =>
    intro hr
    rw [blogsPass1]
    rcases List.mem_cons.1 hr with heq | hmem
    · subst heq
      rw [if_pos hcls]
      split
      · rename_i hi
        rw [hi] at hid
        cases hid
      · rename_i blog_id hi
        split
        · rename_i ht2
          rw [ht2] at ht
          cases ht
        · rename_i title ht2
          rw [ht] at ht2
          injection ht2 with ht2
          subst ht2
          rw [if_neg hnd, if_neg hndel]
          dsimp only
          rcases versions_update_self v T r with ⟨e', he', hle⟩
          rcases blogsPass1_versions_mono rest _ _ T e' he' with ⟨e1, he1, hle2⟩
          exact ⟨e1, he1, le_trans hle hle2⟩
    · split
      · split
        · exact ih m v hmem
        · split
          · exact ih m v hmem
          · split
            · exact ih m v hmem
            · split
              · exact ih m v hmem
              · dsimp only
                exact ih _ _ hmem
      · exact ih m v hmem

theorem pagesPass1_versions_keys_nodup (recs : List PageRec) (m : List (String × String))
    (v : List (String × PVEntry)) (h : (v.map Prod.fst).Nodup) :
    (((pagesPass1 recs m v).2).map Prod.fst).Nodup := by
  induction recs generalizing m v with
  | nil => simpa [pagesPass1] using h
  | cons r rest ih =>
    rw [pagesPass1]
    split
    · split
      · exact ih m v h
      · split
        · exact ih m v h
        · dsimp only
          apply ih
          split
          · exact keys_nodup_dinsert h
          · split
            · exact keys_nodup_dinsert h
            · exact h
    · exact ih m v h

theorem blogsPass1_versions_keys_nodup (recs : List PageRec) (m : List (String × String))
    (v : List (String × PVEntry)) (h : (v.map Prod.fst).Nodup) :
    (((blogsPass1 recs m v).2).map Prod.fst).Nodup := by
  induction recs generalizing m v with
  | nil => simpa [blogsPass1] using h
  | cons r rest ih =>
    rw [blogsPass1]
    split
    · split
      · exact ih m v h
      · split
        · exact ih m v h
        · split
          · exact ih m v h
          · split
            · exact ih m v h
            · dsimp only
              apply ih
              split
              · exact keys_nodup_dinsert h
              · split
                · exact keys_nodup_dinsert h
                · exact h
    · exact ih m v h

end Conf

namespace Conf

/-! ## Title-group lemmas -/

theorem mem_titleIdsC {recs : List PageRec} {cls title x : String} :
    x ∈ titleIdsC recs cls title ↔
      ∃ r ∈ recs, r.recClass = cls ∧ r.title = some title ∧ r.id = some x := by
  unfold titleIdsC
  rw [List.mem_filterMap]
  constructor
  · rintro ⟨r, hr, hf⟩
    by_cases hc : r.recClass = cls ∧ r.title = some title
    · rw [if_pos hc] at hf
      exact ⟨r, hr, hc.1, hc.2, hf⟩
    · rw [if_neg hc] at hf
      cases hf
  · rintro ⟨r, hr, h1, h2, h3⟩
    refine ⟨r, hr, ?_⟩
    rw [if_pos ⟨h1, h2⟩]
    exact h3

theorem mem_recIds {recs : List PageRec} {x : String} :
    x ∈ recIds recs ↔ ∃ r ∈ recs, r.id = some x := by
  unfold recIds
  rw [List.mem_filterMap]

theorem rec_unique_of_nodup {recs : List PageRec} (hu : (recIds recs).Nodup)
    {r r' : PageRec} {x : String} (hr : r ∈ recs) (hr' : r' ∈ recs)
    (hid : r.id = some x) (hid' : r'.id = some x) : r = r' := by
  induction recs with
  | nil => cases hr
  | cons r0 rest ih =>
    have hcons : recIds (r0 :: rest) =
        match r0.id with
        | some i => i :: recIds rest
        | none => recIds rest := by
      unfold recIds
      rw [List.filterMap_cons]
      cases r0.id <;> rfl
    rcases List.mem_cons.1 hr with he | hm <;> rcases List.mem_cons.1 hr' with he' | hm'
    · rw [he, he']
    · exfalso
      subst he
      rw [hid] at hcons
      rw [hcons] at hu
      exact (List.nodup_cons.1 hu).1 (mem_recIds.2 ⟨r', hm', hid'⟩)
    · exfalso
      subst he'
      rw [hid'] at hcons
      rw [hcons] at hu
      exact (List.nodup_cons.1 hu).1 (mem_recIds.2 ⟨r, hm, hid⟩)
    · have hu2 : (recIds rest).Nodup := by
        rw [hcons] at hu
        cases hre : r0.id with
        | none => rwa [hre] at hu
        | some i =>
          rw [hre] at hu
          exact (List.nodup_cons.1 hu).2
      exact ih hu2 hm hm'

theorem titleIds_disjoint {recs : List PageRec} (hu : (recIds recs).Nodup)
    {cls title cls' title' x : String}
    (h1 : x ∈ titleIdsC recs cls title) (h2 : x ∈ titleIdsC recs cls' title') :
    cls = cls' ∧ title = title' := by
  rcases mem_titleIdsC.1 h1 with ⟨r, hr, e1, e2, e3⟩
  rcases mem_titleIdsC.1 h2 with ⟨r2, hr2, f1, f2, f3⟩
  have heq := rec_unique_of_nodup hu hr hr2 e3 f3
  subst heq
  refine ⟨e1 ▸ f1, ?_⟩
  rw [e2] at f2
  injection f2

theorem mem_titleIdsC_cons {r : PageRec} {rest : List PageRec} {cls title x : String} :
    x ∈ titleIdsC (r :: rest) cls title ↔
      (r.recClass = cls ∧ r.title = some title ∧ r.id = some x) ∨
        x ∈ titleIdsC rest cls title := by
  constructor
  · intro h
    rcases mem_titleIdsC.1 h with ⟨r', hr', h1, h2, h3⟩
    rcases List.mem_cons.1 hr' with he | hm
    · subst he
      exact Or.inl ⟨h1, h2, h3⟩
    · exact Or.inr (mem_titleIdsC.2 ⟨r', hm, h1, h2, h3⟩)
  · rintro (⟨h1, h2, h3⟩ | h)
    · exact mem_titleIdsC.2 ⟨r, List.mem_cons_self _ _, h1, h2, h3⟩
    · rcases mem_titleIdsC.1 h with ⟨r', hr', h1, h2, h3⟩
      exact mem_titleIdsC.2 ⟨r', List.mem_cons_of_mem _ hr', h1, h2, h3⟩

theorem mapTitleIds_dget (cls title newest : String) (recs : List PageRec)
    (m : List (String × String)) (x : String) :
    dget (mapTitleIds cls title newest recs m) x =
      if x ∈ titleIdsC recs cls title then some newest else dget m x := by
  induction recs generalizing m with
  | nil => simp [mapTitleIds, titleIdsC]
  | cons r rest ih =>
    rw [mapTitleIds]
    rw [ih]
    by_cases hx : x ∈ titleIdsC rest cls title
    · rw [if_pos hx, if_pos (mem_titleIdsC_cons.2 (Or.inr hx))]
    · rw [if_neg hx]
      by_cases hcond : r.recClass = cls ∧ r.title = some title
      · rw [if_pos hcond]
        cases hrid : r.id with
        | none =>
          rw [if_neg]
          intro hmem
          rcases mem_titleIdsC_cons.1 hmem with ⟨_, _, h3⟩ | h
          · rw [hrid] at h3
            cases h3
          · exact hx h
        | some old =>
          rw [dget_dinsert]
          by_cases ho : old = x
          · rw [if_pos ho,
              if_pos (mem_titleIdsC_cons.2 (Or.inl ⟨hcond.1, hcond.2, ho ▸ hrid⟩))]
          · rw [if_neg ho, if_neg]
            intro hmem
            rcases mem_titleIdsC_cons.1 hmem with ⟨_, _, h3⟩ | h
            · rw [hrid] at h3
              injection h3 with h3
              exact ho h3
            · exact hx h
      · rw [if_neg hcond, if_neg]
        intro hmem
        rcases mem_titleIdsC_cons.1 hmem with ⟨h1, h2, _⟩ | h
        · exact hcond ⟨h1, h2⟩
        · exact hx h

end Conf

namespace Conf

theorem extract_page_item_mapping (cfg : Cfg) (r : PageRec) (sid : String) (st : Store) :
    (extract_page_item cfg r sid st).page_id_mapping = st.page_id_mapping := by
  unfold extract_page_item
  split
  · rfl
  · split <;> rfl

theorem extract_blog_item_mapping (cfg : Cfg) (r : PageRec) (st : Store) :
    (extract_blog_item cfg r st).page_id_mapping = st.page_id_mapping := by
  unfold extract_blog_item
  split
  · rfl
  · split
    · rfl
    · split
      · rfl
      · split <;> rfl

theorem extract_page_item_page_some (cfg : Cfg) (r : PageRec) (sid : String) (st : Store)
    (k pid : String) (hid : r.id = some pid) :
    dget (extract_page_item cfg r sid st).page k =
      if pid = k then some (mkStoredPage cfg r "Page" pid sid) else dget st.page k := by
  unfold extract_page_item
  split
  · rename_i heq
    rw [heq] at hid
    cases hid
  · rename_i pid' heq
    rw [heq] at hid
    injection hid with hid
    subst hid
    split <;> simp only [dget_dinsert]

theorem extract_page_item_page_none (cfg : Cfg) (r : PageRec) (sid : String) (st : Store)
    (k : String) (hid : r.id = none) :
    dget (extract_page_item cfg r sid st).page k = dget st.page k := by
  unfold extract_page_item
  split
  · rfl
  · rename_i pid' heq
    rw [heq] at hid
    cases hid

theorem extract_blog_item_page_some (cfg : Cfg) (r : PageRec) (st : Store)
    (k bid sid : String) (hid : r.id = some bid) (hsid : r.spaceId = some sid)
    (hne : sid ≠ "") :
    dget (extract_blog_item cfg r st).page k =
      if bid = k then some (mkStoredPage cfg r "BlogPost" bid sid) else dget st.page k := by
  unfold extract_blog_item
  split
  · rename_i heq
    rw [heq] at hid
    cases hid
  · rename_i bid' heq
    rw [heq] at hid
    injection hid with hid
    subst hid
    split
    · rename_i heq2
      rw [heq2] at hsid
      cases hsid
    · rename_i sid' heq2
      rw [heq2] at hsid
      injection hsid with hsid
      subst hsid
      rw [if_neg hne]
      split <;> simp only [dget_dinsert]

theorem extract_blog_item_page_skip (cfg : Cfg) (r : PageRec) (st : Store) (k : String)
    (h : r.id = none ∨ r.spaceId = none ∨ r.spaceId = some "") :
    dget (extract_blog_item cfg r st).page k = dget st.page k := by
  unfold extract_blog_item
  split
  · rfl
  · rename_i bid heq
    split
    · rfl
    · rename_i sid heq2
      rcases h with h | h | h
      · rw [heq] at h
        cases h
      · rw [heq2] at h
        cases h
      · rw [heq2] at h
        injection h with h
        rw [if_pos h]

end Conf

namespace Conf

/-! ## Second-pass lemmas: the alias table -/

theorem nodup_keys_eq {α : Type} {l : List (String × α)} (h : (l.map Prod.fst).Nodup)
    {k : String} {a b : α} (ha : (k, a) ∈ l) (hb : (k, b) ∈ l) : a = b := by
  induction l with
  | nil => cases ha
  | cons p rest ih =>
    simp only [List.map_cons, List.nodup_cons] at h
    rcases List.mem_cons.1 ha with ha1 | ha2 <;> rcases List.mem_cons.1 hb with hb1 | hb2
    · rw [← ha1] at hb1
      injection hb1 with h1 h2
      exact h2.symm
    · exfalso
      apply h.1
      rw [← ha1]
      exact List.mem_map.2 ⟨(k, b), hb2, rfl⟩
    · exfalso
      apply h.1
      rw [← hb1]
      exact List.mem_map.2 ⟨(k, a), ha2, rfl⟩
    · exact ih h.2 ha2 hb2

theorem pagesPass2_mapping_untouched (cfg : Cfg) (recs : List PageRec) (sid : String)
    (pv : List (String × PVEntry)) (st : Store) (x : String)
    (hno : ∀ p ∈ pv, x ∉ titleIdsC recs "Page" p.1) :
    dget (pagesPass2 cfg recs sid pv st).page_id_mapping x = dget st.page_id_mapping x := by
  induction pv generalizing st with
  | nil => rfl
  | cons p rest ih =>
    obtain ⟨T, e⟩ := p
    rw [pagesPass2]
    try dsimp only
    rw [ih _ (fun q hq => hno q (List.mem_cons_of_mem _ hq)), extract_page_item_mapping]
    show dget (mapTitleIds "Page" T (e.rcd.id.getD "unknown") recs st.page_id_mapping) x = _
    rw [mapTitleIds_dget, if_neg (hno (T, e) (List.mem_cons_self _ _))]

theorem blogsPass2_mapping_untouched (cfg : Cfg) (recs : List PageRec)
    (bv : List (String × PVEntry)) (st : Store) (x : String)
    (hno : ∀ p ∈ bv, x ∉ titleIdsC recs "BlogPost" p.1) :
    dget (blogsPass2 cfg recs bv st).page_id_mapping x = dget st.page_id_mapping x := by
  induction bv generalizing st with
  | nil => rfl
  | cons p rest ih =>
    obtain ⟨T, e⟩ := p
    rw [blogsPass2]
    try dsimp only
    rw [ih _ (fun q hq => hno q (List.mem_cons_of_mem _ hq)), extract_blog_item_mapping]
    show dget (mapTitleIds "BlogPost" T (e.rcd.id.getD "unknown") recs st.page_id_mapping) x = _
    rw [mapTitleIds_dget, if_neg (hno (T, e) (List.mem_cons_self _ _))]

theorem pagesPass2_mapping_canon (cfg : Cfg) (recs : List PageRec) (sid : String)
    (pv : List (String × PVEntry)) (st : Store)
    (hu : (recIds recs).Nodup) (hkeys : (pv.map Prod.fst).Nodup)
    {T : String} {e : PVEntry} (hmem : (T, e) ∈ pv) {x : String}
    (hx : x ∈ titleIdsC recs "Page" T) :
    dget (pagesPass2 cfg recs sid pv st).page_id_mapping x =
      some (e.rcd.id.getD "unknown") := by
  induction pv generalizing st with
  | nil => cases hmem
  | cons p rest ih =>
    obtain ⟨T0, e0⟩ := p
    simp only [List.map_cons, List.nodup_cons] at hkeys
    rcases List.mem_cons.1 hmem with he | hm
    · injection he with h1 h2
      subst h1
      subst h2
      rw [pagesPass2]
      try dsimp only
      rw [pagesPass2_mapping_untouched]
      · rw [extract_page_item_mapping]
        show dget (mapTitleIds "Page" T (e.rcd.id.getD "unknown") recs st.page_id_mapping) x = _
        rw [mapTitleIds_dget, if_pos hx]
      · intro q hq hxq
        have hTT := (titleIds_disjoint hu hx hxq).2
        exact hkeys.1 (hTT ▸ List.mem_map.2 ⟨q, hq, rfl⟩)
    · rw [pagesPass2]
      exact ih _ hkeys.2 hm

theorem blogsPass2_mapping_canon (cfg : Cfg) (recs : List PageRec)
    (bv : List (String × PVEntry)) (st : Store)
    (hu : (recIds recs).Nodup) (hkeys : (bv.map Prod.fst).Nodup)
    {T : String} {e : PVEntry} (hmem : (T, e) ∈ bv) {x : String}
    (hx : x ∈ titleIdsC recs "BlogPost" T) :
    dget (blogsPass2 cfg recs bv st).page_id_mapping x =
      some (e.rcd.id.getD "unknown") := by
  induction bv generalizing st with
  | nil => cases hmem
  | cons p rest ih =>
    obtain ⟨T0, e0⟩ := p
    simp only [List.map_cons, List.nodup_cons] at hkeys
    rcases List.mem_cons.1 hmem with he | hm
    · injection he with h1 h2
      subst h1
      subst h2
      rw [blogsPass2]
      try dsimp only
      rw [blogsPass2_mapping_untouched]
      · rw [extract_blog_item_mapping]
        show dget (mapTitleIds "BlogPost" T (e.rcd.id.getD "unknown") recs st.page_id_mapping) x = _
        rw [mapTitleIds_dget, if_pos hx]
      · intro q hq hxq
        have hTT := (titleIds_disjoint hu hx hxq).2
        exact hkeys.1 (hTT ▸ List.mem_map.2 ⟨q, hq, rfl⟩)
    · rw [blogsPass2]
      exact ih _ hkeys.2 hm

end Conf

namespace Conf

/-! ## Second-pass lemmas: the page store -/

theorem pagesPass2_page_untouched (cfg : Cfg) (recs : List PageRec) (sid : String)
    (pv : List (String × PVEntry)) (st : Store) (k : String)
    (hno : ∀ p ∈ pv, p.2.rcd.id ≠ some k) :
    dget (pagesPass2 cfg recs sid pv st).page k = dget st.page k := by
  induction pv generalizing st with
  | nil => rfl
  | cons p rest ih =>
    obtain ⟨T, e⟩ := p
    rw [pagesPass2]
    rw [ih _ (fun q hq => hno q (List.mem_cons_of_mem _ hq))]
    cases hid : e.rcd.id with
    | none => rw [extract_page_item_page_none _ _ _ _ _ hid]
    | some pid =>
      rw [extract_page_item_page_some _ _ _ _ _ _ hid, if_neg]
      intro hpk
      exact hno (T, e) (List.mem_cons_self _ _) (by rw [hid, hpk])

theorem blogsPass2_page_untouched (cfg : Cfg) (recs : List PageRec)
    (bv : List (String × PVEntry)) (st : Store) (k : String)
    (hno : ∀ p ∈ bv, p.2.rcd.id ≠ some k) :
    dget (blogsPass2 cfg recs bv st).page k = dget st.page k := by
  induction bv generalizing st with
  | nil => rfl
  | cons p rest ih =>
    obtain ⟨T, e⟩ := p
    rw [blogsPass2]
    rw [ih _ (fun q hq => hno q (List.mem_cons_of_mem _ hq))]
    cases hid : e.rcd.id with
    | none => rw [extract_blog_item_page_skip _ _ _ _ (Or.inl hid)]
    | some bid =>
      cases hsid : e.rcd.spaceId with
      | none => rw [extract_blog_item_page_skip _ _ _ _ (Or.inr (Or.inl hsid))]
      | some s =>
        by_cases hs : s = ""
        · subst hs
          rw [extract_blog_item_page_skip _ _ _ _ (Or.inr (Or.inr hsid))]
        · rw [extract_blog_item_page_some _ _ _ _ _ _ hid hsid hs, if_neg]
          intro hpk
          exact hno (T, e) (List.mem_cons_self _ _) (by rw [hid, hpk])

theorem pagesPass2_page_canon (cfg : Cfg) (recs : List PageRec) (sid : String)
    (pv : List (String × PVEntry)) (st : Store)
    (hkeys : (pv.map Prod.fst).Nodup)
    {T : String} {e : PVEntry} {cid : String} (hmem : (T, e) ∈ pv)
    (hcid : e.rcd.id = some cid)
    (hothers : ∀ p ∈ pv, p ≠ (T, e) → p.2.rcd.id ≠ some cid) :
    dget (pagesPass2 cfg recs sid pv st).page cid =
      some (mkStoredPage cfg e.rcd "Page" cid sid) := by
  induction pv generalizing st with
  | nil => cases hmem
  | cons p rest ih =>
    obtain ⟨T0, e0⟩ := p
    simp only [List.map_cons, List.nodup_cons] at hkeys
    rcases List.mem_cons.1 hmem with he | hm
    · injection he with h1 h2
      subst h1
      subst h2
      rw [pagesPass2]
      rw [pagesPass2_page_untouched]
      · rw [extract_page_item_page_some _ _ _ _ _ _ hcid, if_pos rfl]
      · intro q hq
        apply hothers q (List.mem_cons_of_mem _ hq)
        intro hqe
        subst hqe
        exact hkeys.1 (List.mem_map.2 ⟨(T, e), hq, rfl⟩)
    · rw [pagesPass2]
      exact ih _ hkeys.2 hm (fun q hq hne => hothers q (List.mem_cons_of_mem _ hq) hne)

theorem blogsPass2_page_canon (cfg : Cfg) (recs : List PageRec)
    (bv : List (String × PVEntry)) (st : Store)
    (hkeys : (bv.map Prod.fst).Nodup)
    {T : String} {e : PVEntry} {cid s : String} (hmem : (T, e) ∈ bv)
    (hcid : e.rcd.id = some cid) (hsid : e.rcd.spaceId = some s) (hs : s ≠ "")
    (hothers : ∀ p ∈ bv, p ≠ (T, e) → p.2.rcd.id ≠ some cid) :
    dget (blogsPass2 cfg recs bv st).page cid =
      some (mkStoredPage cfg e.rcd "BlogPost" cid s) := by
  induction bv generalizing st with
  | nil => cases hmem
  | cons p rest ih =>
    obtain ⟨T0, e0⟩ := p
    simp only [List.map_cons, List.nodup_cons] at hkeys
    rcases List.mem_cons.1 hmem with he | hm
    · injection he with h1 h2
      subst h1
      subst h2
      rw [blogsPass2]
      rw [blogsPass2_page_untouched]
      · rw [extract_blog_item_page_some _ _ _ _ _ _ hcid hsid hs, if_pos rfl]
      · intro q hq
        apply hothers q (List.mem_cons_of_mem _ hq)
        intro hqe
        subst hqe
        exact hkeys.1 (List.mem_map.2 ⟨(T, e), hq, rfl⟩)
    · rw [blogsPass2]
      exact ih _ hkeys.2 hm (fun q hq hne => hothers q (List.mem_cons_of_mem _ hq) hne)

end Conf

namespace Conf

theorem mem_groupRecs {recs : List PageRec} {cls title : String} {r : PageRec} :
    r ∈ groupRecs recs cls title ↔ r ∈ recs ∧ r.recClass = cls ∧ r.title = some title := by
  unfold groupRecs
  rw [List.mem_filter]
  simp only [Bool.and_eq_true, decide_eq_true_eq, beq_iff_eq]

theorem extract_pages_eq (cfg : Cfg) (file : XmlFile) (st : Store) (sid : String)
    (hsid : firstSpaceId file = some sid) :
    extract_pages cfg file st =
      blogsPass2 cfg file.pages
        (blogsPass1 file.pages (pagesPass1 file.pages st.page_id_mapping []).1 []).2
        (pagesPass2 cfg file.pages sid (pagesPass1 file.pages st.page_id_mapping []).2
          { st with page_id_mapping :=
              (blogsPass1 file.pages (pagesPass1 file.pages st.page_id_mapping []).1 []).1 }) := by
  unfold extract_pages
  rw [hsid]

end Conf

namespace Conf

theorem C1_pages_core (cfg : Cfg) (file : XmlFile) (sid T : String)
    (hsid : firstSpaceId file = some sid)
    (hids : ∀ r ∈ file.pages, (r.id).isSome = true)
    (huniq : (recIds file.pages).Nodup)
    (hne : ∃ r0, r0 ∈ groupRecs file.pages "Page" T)
    (hnd : ∀ r ∈ groupRecs file.pages "Page" T, r.contentStatus ≠ some "draft") :
    ∃ c ∈ groupRecs file.pages "Page" T, ∃ cid : String, c.id = some cid ∧
      (∀ r ∈ groupRecs file.pages "Page" T, hvOf r ≤ hvOf c) ∧
      dget (extract_pages cfg file Store.init).page cid =
        some (mkStoredPage cfg c "Page" cid sid) ∧
      (∀ r ∈ groupRecs file.pages "Page" T, ∀ x, r.id = some x →
        dget (extract_pages cfg file Store.init).page_id_mapping x = some cid) ∧
      (∀ r ∈ groupRecs file.pages "Page" T, ∀ x, r.id = some x → x ≠ cid →
        dget (extract_pages cfg file Store.init).page x = none) ∧
      (∀ r ∈ groupRecs file.pages "Page" T, ∀ x, r.id = some x → x ≠ "" →
        get_page_by_id (extract_pages cfg file Store.init) x =
          some (mkStoredPage cfg c "Page" cid sid)) := by
  obtain ⟨r0, hr0⟩ := hne
  obtain ⟨hr0m, hr0c, hr0t⟩ := mem_groupRecs.1 hr0
  -- abbreviations
  set recs := file.pages with hrecs
  set pv := (pagesPass1 recs ([] : List (String × String)) []).2 with hpv
  set m1 := (pagesPass1 recs ([] : List (String × String)) []).1 with hm1
  set bv := (blogsPass1 recs m1 []).2 with hbv
  set m2 := (blogsPass1 recs m1 []).1 with hm2
  have hst : extract_pages cfg file Store.init =
      blogsPass2 cfg recs bv
        (pagesPass2 cfg recs sid pv { Store.init with page_id_mapping := m2 }) :=
    extract_pages_eq cfg file Store.init sid hsid
  -- the canonical entry for title T
  have helig0 : r0.recClass = "Page" ∧ r0.contentStatus ≠ some "draft" ∧
      r0.title = some T := ⟨hr0c, hnd r0 hr0, hr0t⟩
  obtain ⟨e, he, _⟩ :=
    pagesPass1_versions_exists recs [] [] r0 T helig0.1 helig0.2.1 helig0.2.2 hr0m
  have hmemTe : (T, e) ∈ pv := dget_mem he
  -- the versions invariant
  have hQ : ∀ p ∈ pv, p.2.rcd ∈ recs ∧ p.2.rcd.recClass = "Page" ∧
      p.2.rcd.contentStatus ≠ some "draft" ∧ p.2.rcd.title = some p.1 ∧
      p.2.hv = hvOf p.2.rcd := by
    intro p hp
    have := pagesPass1_versions_mem recs [] []
      (fun T' e' => e'.rcd ∈ recs ∧ e'.rcd.recClass = "Page" ∧
        e'.rcd.contentStatus ≠ some "draft" ∧ e'.rcd.title = some T' ∧ e'.hv = hvOf e'.rcd)
      (by intro p hp; cases hp)
      (by intro r hr hcls hnd' T' ht'; exact ⟨hr, hcls, hnd', ht', rfl⟩)
      p hp
    exact this
  obtain ⟨hce, hcc, hcd, hct, hch⟩ := hQ (T, e) hmemTe
  -- blog-versions invariant
  have hQb : ∀ p ∈ bv, p.2.rcd ∈ recs ∧ p.2.rcd.recClass = "BlogPost" ∧
      p.2.rcd.title = some p.1 := by
    intro p hp
    have := blogsPass1_versions_mem recs m1 []
      (fun T' e' => e'.rcd ∈ recs ∧ e'.rcd.recClass = "BlogPost" ∧ e'.rcd.title = some T')
      (by intro p hp; cases hp)
      (by intro r hr hcls _ _ _ T' ht'; exact ⟨hr, hcls, ht'⟩)
      p hp
    exact this
  have hkeys : (pv.map Prod.fst).Nodup :=
    pagesPass1_versions_keys_nodup recs [] [] List.nodup_nil
  have hkeysb : (bv.map Prod.fst).Nodup :=
    blogsPass1_versions_keys_nodup recs m1 [] List.nodup_nil
  -- the canonical record and its id
  obtain ⟨cid, hcid⟩ := Option.isSome_iff_exists.1 (hids e.rcd hce)
  have hcgroup : e.rcd ∈ groupRecs recs "Page" T := mem_groupRecs.2 ⟨hce, hcc, hct⟩
  -- no blog-versions entry can carry a page ID of the group
  have hblogid : ∀ y : String, (∃ r ∈ recs, r.recClass = "Page" ∧ r.id = some y) →
      ∀ p ∈ bv, p.2.rcd.id ≠ some y := by
    rintro y ⟨r, hrm, hrc, hry⟩ p hp hpc
    obtain ⟨hbm, hbc, _⟩ := hQb p hp
    have heq := rec_unique_of_nodup huniq hbm hrm hpc hry
    rw [heq, hrc] at hbc
    exact absurd hbc (by decide)
  -- a page-versions entry holding the ID of a group record must be (T, e)
  have hpvid : ∀ p ∈ pv, ∀ r ∈ groupRecs recs "Page" T, ∀ y, r.id = some y →
      p.2.rcd.id = some y → p = (T, e) := by
    intro p hp r hr y hy hpy
    obtain ⟨hrm, hrc, hrt⟩ := mem_groupRecs.1 hr
    obtain ⟨hpm, _, _, hpt, _⟩ := hQ p hp
    have heq := rec_unique_of_nodup huniq hpm hrm hpy hy
    have hTp : p.1 = T := by
      rw [heq, hrt] at hpt
      injection hpt with h
      exact h.symm
    obtain ⟨p1, e'⟩ := p
    dsimp only at hTp
    subst hTp
    have he' : e' = e := nodup_keys_eq hkeys hp hmemTe
    rw [he']
  -- the store fact
  have hstore : dget (extract_pages cfg file Store.init).page cid =
      some (mkStoredPage cfg e.rcd "Page" cid sid) := by
    rw [hst]
    rw [blogsPass2_page_untouched]
    · refine pagesPass2_page_canon cfg recs sid pv _ hkeys hmemTe hcid ?_
      intro p hp hpne hpc
      exact hpne (hpvid p hp e.rcd hcgroup cid hcid hpc)
    · exact fun p hp => hblogid cid ⟨e.rcd, hce, hcc, hcid⟩ p hp
  -- the mapping fact
  have hmap : ∀ r ∈ groupRecs recs "Page" T, ∀ x, r.id = some x →
      dget (extract_pages cfg file Store.init).page_id_mapping x = some cid := by
    intro r hr x hx
    obtain ⟨hrm, hrc, hrt⟩ := mem_groupRecs.1 hr
    have hxt : x ∈ titleIdsC recs "Page" T := mem_titleIdsC.2 ⟨r, hrm, hrc, hrt, hx⟩
    rw [hst]
    rw [blogsPass2_mapping_untouched]
    · rw [pagesPass2_mapping_canon cfg recs sid pv _ huniq hkeys hmemTe hxt, hcid]
      rfl
    · intro p hp hxb
      exact absurd (titleIds_disjoint huniq hxt hxb).1 (by decide)
  -- non-canonical group IDs are not store keys
  have hnone : ∀ r ∈ groupRecs recs "Page" T, ∀ x, r.id = some x → x ≠ cid →
      dget (extract_pages cfg file Store.init).page x = none := by
    intro r hr x hx hxne
    obtain ⟨hrm, hrc, hrt⟩ := mem_groupRecs.1 hr
    rw [hst]
    rw [blogsPass2_page_untouched]
    · rw [pagesPass2_page_untouched]
      · rfl
      · intro p hp hpx
        have hpe := hpvid p hp r hr x hx hpx
        rw [hpe] at hpx
        dsimp only at hpx
        rw [hcid] at hpx
        injection hpx with hpx
        exact hxne hpx.symm
    · exact fun p hp => hblogid x ⟨r, hrm, hrc, hx⟩ p hp
  refine ⟨e.rcd, hcgroup, cid, hcid, ?_, hstore, hmap, hnone, ?_⟩
  · -- max property
    intro r hr
    obtain ⟨hrm, hrc, hrt⟩ := mem_groupRecs.1 hr
    obtain ⟨e1, he1, hle⟩ :=
      pagesPass1_versions_exists recs [] [] r T hrc (hnd r hr) hrt hrm
    rw [he] at he1
    injection he1 with he1
    rw [← he1] at hle
    rw [hch] at hle
    exact hle
  · -- get_page_by_id resolves every group ID to the canonical record
    intro r hr x hx hxe
    unfold get_page_by_id
    rw [if_neg hxe, hmap r hr x hx]
    show dget (extract_pages cfg file Store.init).page (if cid ≠ x then cid else x) =
      some (mkStoredPage cfg e.rcd "Page" cid sid)
    by_cases hcx : cid = x
    · subst hcx
      simpa using hstore
    · rw [if_pos hcx]
      exact hstore

end Conf

namespace Conf

theorem C1_blogs_core (cfg : Cfg) (file : XmlFile) (sid T : String)
    (hsid : firstSpaceId file = some sid)
    (hids : ∀ r ∈ file.pages, (r.id).isSome = true)
    (huniq : (recIds file.pages).Nodup)
    (hne : ∃ r0, r0 ∈ groupRecs file.pages "BlogPost" T)
    (hnd : ∀ r ∈ groupRecs file.pages "BlogPost" T, r.contentStatus ≠ some "draft")
    (hndel : ∀ r ∈ groupRecs file.pages "BlogPost" T, r.contentStatus ≠ some "deleted")
    (hspace : ∀ r ∈ groupRecs file.pages "BlogPost" T, ∃ s, r.spaceId = some s ∧ s ≠ "") :
    ∃ c ∈ groupRecs file.pages "BlogPost" T, ∃ cid s : String,
      c.id = some cid ∧ c.spaceId = some s ∧
      (∀ r ∈ groupRecs file.pages "BlogPost" T, hvOf r ≤ hvOf c) ∧
      dget (extract_pages cfg file Store.init).page cid =
        some (mkStoredPage cfg c "BlogPost" cid s) ∧
      (∀ r ∈ groupRecs file.pages "BlogPost" T, ∀ x, r.id = some x →
        dget (extract_pages cfg file Store.init).page_id_mapping x = some cid) ∧
      (∀ r ∈ groupRecs file.pages "BlogPost" T, ∀ x, r.id = some x → x ≠ cid →
        dget (extract_pages cfg file Store.init).page x = none) ∧
      (∀ r ∈ groupRecs file.pages "BlogPost" T, ∀ x, r.id = some x → x ≠ "" →
        get_page_by_id (extract_pages cfg file Store.init) x =
          some (mkStoredPage cfg c "BlogPost" cid s)) := by
  obtain ⟨r0, hr0⟩ := hne
  obtain ⟨hr0m, hr0c, hr0t⟩ := mem_groupRecs.1 hr0
  set recs := file.pages with hrecs
  set pv := (pagesPass1 recs ([] : List (String × String)) []).2 with hpv
  set m1 := (pagesPass1 recs ([] : List (String × String)) []).1 with hm1
  set bv := (blogsPass1 recs m1 []).2 with hbv
  set m2 := (blogsPass1 recs m1 []).1 with hm2
  have hst : extract_pages cfg file Store.init =
      blogsPass2 cfg recs bv
        (pagesPass2 cfg recs sid pv { Store.init with page_id_mapping := m2 }) :=
    extract_pages_eq cfg file Store.init sid hsid
  obtain ⟨e, he, _⟩ :=
    blogsPass1_versions_exists recs m1 [] r0 T hr0c (hids r0 hr0m) (hnd r0 hr0)
      (hndel r0 hr0) hr0t hr0m
  have hmemTe : (T, e) ∈ bv := dget_mem he
  have hQ : ∀ p ∈ pv, p.2.rcd ∈ recs ∧ p.2.rcd.recClass = "Page" ∧
      p.2.rcd.title = some p.1 := by
    intro p hp
    exact pagesPass1_versions_mem recs [] []
      (fun T' e' => e'.rcd ∈ recs ∧ e'.rcd.recClass = "Page" ∧ e'.rcd.title = some T')
      (by intro p hp; cases hp)
      (by intro r hr hcls _ T' ht'; exact ⟨hr, hcls, ht'⟩)
      p hp
  have hQb : ∀ p ∈ bv, p.2.rcd ∈ recs ∧ p.2.rcd.recClass = "BlogPost" ∧
      p.2.rcd.contentStatus ≠ some "draft" ∧ p.2.rcd.contentStatus ≠ some "deleted" ∧
      p.2.rcd.title = some p.1 ∧ p.2.hv = hvOf p.2.rcd := by
    intro p hp
    exact blogsPass1_versions_mem recs m1 []
      (fun T' e' => e'.rcd ∈ recs ∧ e'.rcd.recClass = "BlogPost" ∧
        e'.rcd.contentStatus ≠ some "draft" ∧ e'.rcd.contentStatus ≠ some "deleted" ∧
        e'.rcd.title = some T' ∧ e'.hv = hvOf e'.rcd)
      (by intro p hp; cases hp)
      (by intro r hr hcls _ hnd' hndel' T' ht'; exact ⟨hr, hcls, hnd', hndel', ht', rfl⟩)
      p hp
  obtain ⟨hce, hcc, hcd, hcdel, hct, hch⟩ := hQb (T, e) hmemTe
  have hkeys : (pv.map Prod.fst).Nodup :=
    pagesPass1_versions_keys_nodup recs [] [] List.nodup_nil
  have hkeysb : (bv.map Prod.fst).Nodup :=
    blogsPass1_versions_keys_nodup recs m1 [] List.nodup_nil
  obtain ⟨cid, hcid⟩ := Option.isSome_iff_exists.1 (hids e.rcd hce)
  have hcgroup : e.rcd ∈ groupRecs recs "BlogPost" T := mem_groupRecs.2 ⟨hce, hcc, hct⟩
  obtain ⟨s, hs, hsne⟩ := hspace e.rcd hcgroup
  -- no page-versions entry can carry a blog ID of the group
  have hpageid : ∀ y : String, (∃ r ∈ recs, r.recClass = "BlogPost" ∧ r.id = some y) →
      ∀ p ∈ pv, p.2.rcd.id ≠ some y := by
    rintro y ⟨r, hrm, hrc, hry⟩ p hp hpc
    obtain ⟨hpm, hpc2, _⟩ := hQ p hp
    have heq := rec_unique_of_nodup huniq hpm hrm hpc hry
    rw [heq, hrc] at hpc2
    exact absurd hpc2 (by decide)
  -- a blog-versions entry holding the ID of a group record must be (T, e)
  have hbvid : ∀ p ∈ bv, ∀ r ∈ groupRecs recs "BlogPost" T, ∀ y, r.id = some y →
      p.2.rcd.id = some y → p = (T, e) := by
    intro p hp r hr y hy hpy
    obtain ⟨hrm, hrc, hrt⟩ := mem_groupRecs.1 hr
    obtain ⟨hpm, _, _, _, hpt, _⟩ := hQb p hp
    have heq := rec_unique_of_nodup huniq hpm hrm hpy hy
    have hTp : p.1 = T := by
      rw [heq, hrt] at hpt
      injection hpt with h
      exact h.symm
    obtain ⟨p1, e'⟩ := p
    dsimp only at hTp
    subst hTp
    have he' : e' = e := nodup_keys_eq hkeysb hp hmemTe
    rw [he']
  have hstore : dget (extract_pages cfg file Store.init).page cid =
      some (mkStoredPage cfg e.rcd "BlogPost" cid s) := by
    rw [hst]
    refine blogsPass2_page_canon cfg recs bv _ hkeysb hmemTe hcid hs hsne ?_
    intro p hp hpne hpc
    exact hpne (hbvid p hp e.rcd hcgroup cid hcid hpc)
  have hmap : ∀ r ∈ groupRecs recs "BlogPost" T, ∀ x, r.id = some x →
      dget (extract_pages cfg file Store.init).page_id_mapping x = some cid := by
    intro r hr x hx
    obtain ⟨hrm, hrc, hrt⟩ := mem_groupRecs.1 hr
    have hxt : x ∈ titleIdsC recs "BlogPost" T := mem_titleIdsC.2 ⟨r, hrm, hrc, hrt, hx⟩
    rw [hst]
    rw [blogsPass2_mapping_canon cfg recs bv _ huniq hkeysb hmemTe hxt, hcid]
    rfl
  have hnone : ∀ r ∈ groupRecs recs "BlogPost" T, ∀ x, r.id = some x → x ≠ cid →
      dget (extract_pages cfg file Store.init).page x = none := by
    intro r hr x hx hxne
    obtain ⟨hrm, hrc, hrt⟩ := mem_groupRecs.1 hr
    rw [hst]
    rw [blogsPass2_page_untouched]
    · rw [pagesPass2_page_untouched]
      · rfl
      · exact fun p hp => hpageid x ⟨r, hrm, hrc, hx⟩ p hp
    · intro p hp hpx
      have hpe := hbvid p hp r hr x hx hpx
      rw [hpe] at hpx
      dsimp only at hpx
      rw [hcid] at hpx
      injection hpx with hpx
      exact hxne hpx.symm
  refine ⟨e.rcd, hcgroup, cid, s, hcid, hs, ?_, hstore, hmap, hnone, ?_⟩
  · intro r hr
    obtain ⟨hrm, hrc, hrt⟩ := mem_groupRecs.1 hr
    obtain ⟨e1, he1, hle⟩ :=
      blogsPass1_versions_exists recs m1 [] r T hrc (hids r hrm) (hnd r hr)
        (hndel r hr) hrt hrm
    rw [he] at he1
    injection he1 with he1
    rw [← he1] at hle
    rw [hch] at hle
    exact hle
  · intro r hr x hx hxe
    unfold get_page_by_id
    rw [if_neg hxe, hmap r hr x hx]
    show dget (extract_pages cfg file Store.init).page (if cid ≠ x then cid else x) =
      some (mkStoredPage cfg e.rcd "BlogPost" cid s)
    by_cases hcx : cid = x
    · subst hcx
      simpa using hstore
    · rw [if_pos hcx]
      exact hstore

end Conf

namespace Conf

/-- C1: within one ingested XML file (with well-formed record IDs: present
and pairwise distinct), for every set of page records sharing a title — and
likewise every set of blog-post records sharing a title — the Entity Store
retains exactly one record: a member of the group with the numerically
greatest `hibernateVersion`; every other group ID is not a store key, every
group ID is aliased to the canonical ID in `page_id_mapping`, and
`get_page_by_id` resolves every group ID to the canonical record.  (Group
members are required non-draft — drafts are excluded from consolidation by
design — and blog groups additionally non-deleted and carrying a space,
matching the ingestion filters.) -/
theorem C1_version_consolidation (cfg : Cfg) (file : XmlFile) (sid T : String)
    (hsid : firstSpaceId file = some sid)
    (hids : ∀ r ∈ file.pages, (r.id).isSome = true)
    (huniq : (recIds file.pages).Nodup) :
    ((∃ r0, r0 ∈ groupRecs file.pages "Page" T) →
     (∀ r ∈ groupRecs file.pages "Page" T, r.contentStatus ≠ some "draft") →
      ∃ c ∈ groupRecs file.pages "Page" T, ∃ cid : String, c.id = some cid ∧
        (∀ r ∈ groupRecs file.pages "Page" T, hvOf r ≤ hvOf c) ∧
        dget (extract_pages cfg file Store.init).page cid =
          some (mkStoredPage cfg c "Page" cid sid) ∧
        (∀ r ∈ groupRecs file.pages "Page" T, ∀ x, r.id = some x →
          dget (extract_pages cfg file Store.init).page_id_mapping x = some cid) ∧
        (∀ r ∈ groupRecs file.pages "Page" T, ∀ x, r.id = some x → x ≠ cid →
          dget (extract_pages cfg file Store.init).page x = none) ∧
        (∀ r ∈ groupRecs file.pages "Page" T, ∀ x, r.id = some x → x ≠ "" →
          get_page_by_id (extract_pages cfg file Store.init) x =
            some (mkStoredPage cfg c "Page" cid sid))) ∧
    ((∃ r0, r0 ∈ groupRecs file.pages "BlogPost" T) →
     (∀ r ∈ groupRecs file.pages "BlogPost" T, r.contentStatus ≠ some "draft") →
     (∀ r ∈ groupRecs file.pages "BlogPost" T, r.contentStatus ≠ some "deleted") →
     (∀ r ∈ groupRecs file.pages "BlogPost" T, ∃ s, r.spaceId = some s ∧ s ≠ "") →
      ∃ c ∈ groupRecs file.pages "BlogPost" T, ∃ cid s : String,
        c.id = some cid ∧ c.spaceId = some s ∧
        (∀ r ∈ groupRecs file.pages "BlogPost" T, hvOf r ≤ hvOf c) ∧
        dget (extract_pages cfg file Store.init).page cid =
          some (mkStoredPage cfg c "BlogPost" cid s) ∧
        (∀ r ∈ groupRecs file.pages "BlogPost" T, ∀ x, r.id = some x →
          dget (extract_pages cfg file Store.init).page_id_mapping x = some cid) ∧
        (∀ r ∈ groupRecs file.pages "BlogPost" T, ∀ x, r.id = some x → x ≠ cid →
          dget (extract_pages cfg file Store.init).page x = none) ∧
        (∀ r ∈ groupRecs file.pages "BlogPost" T, ∀ x, r.id = some x → x ≠ "" →
          get_page_by_id (extract_pages cfg file Store.init) x =
            some (mkStoredPage cfg c "BlogPost" cid s))) :=
  ⟨fun hne hnd => C1_pages_core cfg file sid T hsid hids huniq hne hnd,
   fun hne hnd hndel hspace =>
     C1_blogs_core cfg file sid T hsid hids huniq hne hnd hndel hspace⟩

/-- Witness for C1 on `c1File`: the page group titled `T` and the blog
group titled `BT` each consolidate to one canonical record. -/
theorem C1_version_consolidation_witness :
    (∃ c ∈ groupRecs c1File.pages "Page" "T", ∃ cid : String, c.id = some cid ∧
      (∀ r ∈ groupRecs c1File.pages "Page" "T", hvOf r ≤ hvOf c) ∧
      dget (extract_pages defaultCfg c1File Store.init).page cid =
        some (mkStoredPage defaultCfg c "Page" cid "s1") ∧
      (∀ r ∈ groupRecs c1File.pages "Page" "T", ∀ x, r.id = some x →
        dget (extract_pages defaultCfg c1File Store.init).page_id_mapping x = some cid) ∧
      (∀ r ∈ groupRecs c1File.pages "Page" "T", ∀ x, r.id = some x → x ≠ cid →
        dget (extract_pages defaultCfg c1File Store.init).page x = none) ∧
      (∀ r ∈ groupRecs c1File.pages "Page" "T", ∀ x, r.id = some x → x ≠ "" →
        get_page_by_id (extract_pages defaultCfg c1File Store.init) x =
          some (mkStoredPage defaultCfg c "Page" cid "s1"))) ∧
    (∃ c ∈ groupRecs c1File.pages "BlogPost" "BT", ∃ cid s : String,
      c.id = some cid ∧ c.spaceId = some s ∧
      (∀ r ∈ groupRecs c1File.pages "BlogPost" "BT", hvOf r ≤ hvOf c) ∧
      dget (extract_pages defaultCfg c1File Store.init).page cid =
        some (mkStoredPage defaultCfg c "BlogPost" cid s) ∧
      (∀ r ∈ groupRecs c1File.pages "BlogPost" "BT", ∀ x, r.id = some x →
        dget (extract_pages defaultCfg c1File Store.init).page_id_mapping x = some cid) ∧
      (∀ r ∈ groupRecs c1File.pages "BlogPost" "BT", ∀ x, r.id = some x → x ≠ cid →
        dget (extract_pages defaultCfg c1File Store.init).page x = none) ∧
      (∀ r ∈ groupRecs c1File.pages "BlogPost" "BT", ∀ x, r.id = some x → x ≠ "" →
        get_page_by_id (extract_pages defaultCfg c1File Store.init) x =
          some (mkStoredPage defaultCfg c "BlogPost" cid s))) :=
  ⟨(C1_version_consolidation defaultCfg c1File "s1" "T" (by decide) (by decide)
      (by decide)).1
    ⟨{ recClass := "Page", id := some "1", title := some "T", hibernateVersion := some 1 },
      by decide⟩
    (by decide),
   (C1_version_consolidation defaultCfg c1File "s1" "BT" (by decide) (by decide)
      (by decide)).2
    ⟨{ recClass := "BlogPost", id := some "3", title := some "BT",
        hibernateVersion := some 1, spaceId := some "s1" }, by decide⟩
    (by decide) (by decide)
    (by
      intro r hr
      fin_cases hr <;> exact ⟨"s1", rfl, by decide⟩)⟩

end Conf

namespace Conf

/-! ## The alias table through the other ingestion passes -/

theorem foldl_mapping {β : Type} (f : Store → β → Store) (l : List β) (st : Store)
    (h : ∀ st b, (f st b).page_id_mapping = st.page_id_mapping) :
    (l.foldl f st).page_id_mapping = st.page_id_mapping := by
  induction l generalizing st with
  | nil => rfl
  | cons b t ih => rw [List.foldl_cons, ih, h]

theorem mapping_extract_users (file : XmlFile) (st : Store) :
    (extract_users file st).page_id_mapping = st.page_id_mapping := by
  unfold extract_users
  rw [foldl_mapping]
  intro st b
  dsimp only
  split
  · rfl
  · split <;> rfl

theorem mapping_extract_spaces (file : XmlFile) (st : Store) :
    (extract_spaces file st).page_id_mapping = st.page_id_mapping := by
  unfold extract_spaces
  rw [foldl_mapping]
  intro st b
  dsimp only
  split <;> rfl

theorem mapping_extract_comments (file : XmlFile) (st : Store) :
    (extract_comments file st).page_id_mapping = st.page_id_mapping := by
  unfold extract_comments
  rw [foldl_mapping]
  intro st b
  dsimp only
  split <;> rfl

theorem mapping_apply_body (rels : List (String × Body)) (st : Store) (a b : Nat)
    (st' : Store) (x y : Nat)
    (h : apply_body_page_relations rels st a b = some (st', x, y)) :
    st'.page_id_mapping = st.page_id_mapping := by
  induction rels generalizing st a b with
  | nil =>
    rw [apply_body_page_relations] at h
    injection h with h
    injection h with h1 h2
    rw [h1]
  | cons p rest ih =>
    obtain ⟨content_id, bd⟩ := p
    rw [apply_body_page_relations] at h
    split at h
    · cases h
    · dsimp only at h
      split at h
      · split at h
        · exact (ih _ _ _ h).trans rfl
        · exact ih _ _ _ h
      · split at h
        · exact (ih _ _ _ h).trans rfl
        · exact ih _ _ _ h

theorem mapping_link_comments (st : Store) :
    (link_comments_to_pages st).page_id_mapping = st.page_id_mapping := by
  unfold link_comments_to_pages
  rw [foldl_mapping]
  intro st b
  dsimp only
  split
  · split <;> rfl
  · rfl

theorem mapping_extract_attachments (cfg : Cfg) (file : XmlFile) (st : Store) :
    (extract_attachments cfg file st).page_id_mapping = st.page_id_mapping := by
  unfold extract_attachments
  rw [foldl_mapping]
  intro st b
  dsimp only
  split <;> rfl

theorem mapping_extract_outgoing_links (file : XmlFile) (st : Store) :
    (extract_outgoing_links file st).page_id_mapping = st.page_id_mapping := by
  unfold extract_outgoing_links
  rw [foldl_mapping]
  intro st b
  dsimp only
  split
  · rfl
  · split
    · rfl
    · split <;> rfl

theorem mapping_extract_labels (file : XmlFile) (st : Store) :
    (extract_labels_and_labellings file st).page_id_mapping = st.page_id_mapping := by
  unfold extract_labels_and_labellings
  rw [foldl_mapping, foldl_mapping]
  · intro st b
    dsimp only
    split <;> rfl
  · intro st b
    dsimp only
    split
    · rfl
    · split
      · rfl
      · split
        · rfl
        · split <;> rfl

theorem mapping_extract_page_properties (file : XmlFile) (st : Store) :
    (extract_page_properties file st).page_id_mapping = st.page_id_mapping := by
  unfold extract_page_properties
  rw [foldl_mapping]
  intro st b
  dsimp only
  split
  · rfl
  · split
    · rfl
    · split <;> rfl

theorem mapping_build_helper_indexes (st : Store) :
    (build_helper_indexes st).page_id_mapping = st.page_id_mapping := by
  unfold build_helper_indexes
  rw [foldl_mapping, foldl_mapping]
  · intro st b
    dsimp only
    split <;> rfl
  · intro st b
    dsimp only
    split <;> rfl

theorem mapping_underscore_homepage_titles (st : Store) :
    (underscore_homepage_titles st).page_id_mapping = st.page_id_mapping := by
  unfold underscore_homepage_titles
  rw [foldl_mapping]
  intro st b
  dsimp only
  split
  · rfl
  · split
    · rfl
    · split
      · rfl
      · split <;> split <;> rfl

end Conf

namespace Conf

/-! ## Single-ingestion idempotence of the alias table (C10) -/

theorem add_xml_file_mapping (cfg : Cfg) (xfs : String → Option XmlFile) (st : Store)
    (xml_path : String) (file : XmlFile)
    (hnp : st.processed_xml_files.contains xml_path = false)
    (hfile : xfs xml_path = some file) :
    ((add_xml_file cfg xfs st xml_path).2).page_id_mapping =
      (extract_pages cfg file (extract_spaces file (extract_users file st))).page_id_mapping := by
  unfold add_xml_file
  split
  · rename_i h
    rw [hnp] at h
    cases h
  · rw [hfile]
    dsimp only
    split
    · exact mapping_extract_comments _ _
    · rename_i st2 a b happ
      dsimp only
      split
      · rw [mapping_underscore_homepage_titles, mapping_build_helper_indexes]
        show (extract_page_properties _ _).page_id_mapping = _
        rw [mapping_extract_page_properties, mapping_extract_labels,
          mapping_extract_outgoing_links, mapping_extract_attachments,
          mapping_link_comments, mapping_apply_body _ _ _ _ _ _ _ happ,
          mapping_extract_comments]
      · rw [mapping_build_helper_indexes]
        show (extract_page_properties _ _).page_id_mapping = _
        rw [mapping_extract_page_properties, mapping_extract_labels,
          mapping_extract_outgoing_links, mapping_extract_attachments,
          mapping_link_comments, mapping_apply_body _ _ _ _ _ _ _ happ,
          mapping_extract_comments]

theorem extract_pages_mapping_idem (cfg : Cfg) (file : XmlFile) (st : Store)
    (hm0 : st.page_id_mapping = [])
    (hids : ∀ r ∈ file.pages, (r.id).isSome = true)
    (huniq : (recIds file.pages).Nodup) :
    ∀ x v, dget (extract_pages cfg file st).page_id_mapping x = some v →
      dget (extract_pages cfg file st).page_id_mapping v = some v := by
  intro x v hxv
  cases hsid : firstSpaceId file with
  | none =>
    have hst : extract_pages cfg file st = st := by
      unfold extract_pages
      rw [hsid]
    rw [hst, hm0] at hxv
    cases hxv
  | some sid =>
    rw [extract_pages_eq cfg file st sid hsid] at hxv ⊢
    have hpkeys : (((pagesPass1 file.pages st.page_id_mapping []).2).map Prod.fst).Nodup :=
      pagesPass1_versions_keys_nodup _ _ [] (by simp)
    have hbkeys :
        (((blogsPass1 file.pages (pagesPass1 file.pages st.page_id_mapping []).1 []).2).map
          Prod.fst).Nodup :=
      blogsPass1_versions_keys_nodup _ _ [] (by simp)
    have hpQ : ∀ p ∈ (pagesPass1 file.pages st.page_id_mapping []).2,
        p.2.rcd ∈ file.pages ∧ p.2.rcd.recClass = "Page" ∧ p.2.rcd.title = some p.1 :=
      pagesPass1_versions_mem _ _ []
        (fun T e => e.rcd ∈ file.pages ∧ e.rcd.recClass = "Page" ∧ e.rcd.title = some T)
        (by intro p hp; cases hp)
        (fun r hr hc hnd T ht => ⟨hr, hc, ht⟩)
    have hbQ : ∀ p ∈ (blogsPass1 file.pages (pagesPass1 file.pages st.page_id_mapping []).1 []).2,
        p.2.rcd ∈ file.pages ∧ p.2.rcd.recClass = "BlogPost" ∧ p.2.rcd.title = some p.1 :=
      blogsPass1_versions_mem _ _ []
        (fun T e => e.rcd ∈ file.pages ∧ e.rcd.recClass = "BlogPost" ∧ e.rcd.title = some T)
        (by intro p hp; cases hp)
        (fun r hr hc hid hnd hndel T ht => ⟨hr, hc, ht⟩)
    by_cases hb : ∃ p ∈ (blogsPass1 file.pages (pagesPass1 file.pages st.page_id_mapping []).1
        []).2, x ∈ titleIdsC file.pages "BlogPost" p.1
    · obtain ⟨p, hp, hx⟩ := hb
      obtain ⟨T, e⟩ := p
      rw [blogsPass2_mapping_canon cfg file.pages _ _ huniq hbkeys hp hx] at hxv
      injection hxv with hv
      obtain ⟨hin, hcls, hT⟩ := hbQ (T, e) hp
      obtain ⟨cid, hcid⟩ := Option.isSome_iff_exists.1 (hids e.rcd hin)
      have hgd : e.rcd.id.getD "unknown" = cid := by rw [hcid]; rfl
      have hcx : cid ∈ titleIdsC file.pages "BlogPost" T :=
        mem_titleIdsC.2 ⟨e.rcd, hin, hcls, hT, hcid⟩
      subst hv
      rw [hgd, blogsPass2_mapping_canon cfg file.pages _ _ huniq hbkeys hp hcx, hgd]
    · push_neg at hb
      have hxv' := hxv
      rw [blogsPass2_mapping_untouched cfg file.pages _ _ x hb] at hxv'
      by_cases hpp : ∃ p ∈ (pagesPass1 file.pages st.page_id_mapping []).2,
          x ∈ titleIdsC file.pages "Page" p.1
      · obtain ⟨p, hp, hx⟩ := hpp
        obtain ⟨T, e⟩ := p
        rw [pagesPass2_mapping_canon cfg file.pages sid _ _ huniq hpkeys hp hx] at hxv'
        injection hxv' with hv
        obtain ⟨hin, hcls, hT⟩ := hpQ (T, e) hp
        obtain ⟨cid, hcid⟩ := Option.isSome_iff_exists.1 (hids e.rcd hin)
        have hgd : e.rcd.id.getD "unknown" = cid := by rw [hcid]; rfl
        have hcx : cid ∈ titleIdsC file.pages "Page" T :=
          mem_titleIdsC.2 ⟨e.rcd, hin, hcls, hT, hcid⟩
        have hbno : ∀ q ∈ (blogsPass1 file.pages (pagesPass1 file.pages st.page_id_mapping []).1
            []).2, cid ∉ titleIdsC file.pages "BlogPost" q.1 := by
          intro q hq hmem
          exact absurd (titleIds_disjoint huniq hcx hmem).1 (by decide)
        subst hv
        rw [hgd, blogsPass2_mapping_untouched cfg file.pages _ _ cid hbno,
          pagesPass2_mapping_canon cfg file.pages sid _ _ huniq hpkeys hp hcx, hgd]
      · push_neg at hpp
        rw [pagesPass2_mapping_untouched cfg file.pages sid _ _ x hpp] at hxv'
        have hself :
            ∀ a b, dget (blogsPass1 file.pages (pagesPass1 file.pages st.page_id_mapping []).1
              []).1 a = some b → b = a :=
          blogsPass1_selfmap _ _ []
            (pagesPass1_selfmap _ _ [] (by intro a b hab; rw [hm0] at hab; cases hab))
        have hvx : v = x := hself x v hxv'
        subst hvx
        exact hxv

end Conf

namespace Conf

/-- C10 (amended): after a single ingestion of one export file into a fresh
Entity Store — a file in which every page/blog record carries an ID and no
two records share one — the alias table `page_id_mapping` is idempotent:
every value it maps some key to is itself a fixed point
(`mapping[mapping[x]] = mapping[x]`), so resolution never needs more than
one hop. The original claim, quantified over any sequence of ingestions, is
refuted by `C10_alias_counterexample`: a second file re-aliasing an earlier
canonical ID leaves a two-hop chain. -/
theorem C10_alias_idempotent (cfg : Cfg) (xfs : String → Option XmlFile)
    (xml_path : String) (file : XmlFile)
    (hfile : xfs xml_path = some file)
    (hids : ∀ r ∈ file.pages, (r.id).isSome = true)
    (huniq : (recIds file.pages).Nodup) :
    ∀ x v,
      dget ((add_xml_file cfg xfs Store.init xml_path).2).page_id_mapping x = some v →
      dget ((add_xml_file cfg xfs Store.init xml_path).2).page_id_mapping v = some v := by
  have hmap := add_xml_file_mapping cfg xfs Store.init xml_path file rfl hfile
  rw [hmap]
  exact extract_pages_mapping_idem cfg file _
    (by rw [mapping_extract_spaces, mapping_extract_users]; rfl) hids huniq

/-- Witness: ingesting the first C10 export alone maps page `1` to the
canonical `2`, and `2` is a fixed point. -/
theorem C10_alias_idempotent_witness :
    dget ((add_xml_file defaultCfg c10Xfs Store.init "f1").2).page_id_mapping "1" =
      some "2" ∧
    dget ((add_xml_file defaultCfg c10Xfs Store.init "f1").2).page_id_mapping "2" =
      some "2" :=
  ⟨by decide,
   C10_alias_idempotent defaultCfg c10Xfs "f1" c10File1 (by decide) (by decide) (by decide)
     "1" "2" (by decide)⟩

end Conf

namespace Conf

/-- C2 counterexample: in the download-attachments pass of
`process_attachment_links`, the markdown link
`[d](download/attachments/111/Manual.pdf?version=1)` finds attachment `456`
(title `Manual.pdf`) by filename; the record's authoritative parent is
`containerContent_id = "789"` (space key `ENG`), yet the replacement path is
built from the embedded path ID `111` — `K/attachments/111/Manual.pdf`, not
`ENG/attachments/789/Manual.pdf`. -/
theorem C2_download_counterexample :
    (get_attachment_by_id c2DlStore "456").map (fun a => a.containerContent_id) =
      some "789" ∧
    get_attachment_by_filename c2DlStore "Manual.pdf" =
      get_attachment_by_id c2DlStore "456" ∧
    download_new_link defaultCfg c2DlStore "111" "Manual.pdf" =
      "K/attachments/111/Manual.pdf" ∧
    download_new_link defaultCfg c2DlStore "111" "Manual.pdf" ≠
      "ENG/attachments/789/Manual.pdf" := by
  refine ⟨rfl, rfl, by decide, by decide⟩

end Conf
